import Mathlib

/-!
# PHARE: particle split/refine operator and hybrid messenger strategy

Shallow embedding of
`src/amr/data/particles/refine/particles_data_split_on_coarse_boundary.h`
(`ParticlesDataSplitOperator`), of
`src/amr/evolution/messengers/hybrid_hybrid_messenger_strategy.h`
(`HybridHybridMessengerStrategy`) and of `src/core/utilities/point/point.h` (`Point`).

Modelling conventions.

* C++ `double`/`float` values (particle `delta`, `weight`, mesh size `dx`, origin `xLower`)
  are exact rationals `ℚ`; rounding error is not modelled. Statements whose truth on the
  program turns on rounding (exact thresholds of the reach, exact conservation of the
  position by `shiftParticle`) are therefore not made; the evaluations at concrete inputs use
  values that `float` and `double` represent exactly.
* C++ `int` values (cell indices, box corners, ratio) are unbounded `Int`; the statements are
  about runs in which no signed overflow happens.
* `static_cast<int>(double)` is truncation toward zero (`truncToInt`).
* `std::vector::push_back` is `buf ++ [x]`; the range-`for` loops are `List.foldl`.
* The `Communicators` class is not among the sources: the member functions of the strategy
  take its behaviour as a parameter (`CommunicatorsSemantics`), a state transformer that may
  throw, and are sequences of calls in the `Except` monad.
-/

namespace PHARE

/-! ## Data model -/

/-- The first axis, `dirX`. -/
def dirX : Fin 1 := 0

/-- Particle of `particles_data.h`: cell index and in-cell offset per axis, velocity,
charge and weight. -/
structure Particle (dim : Nat) where
  weight : ℚ
  charge : ℚ
  iCell : Fin dim → Int
  delta : Fin dim → ℚ
  v : Fin 3 → ℚ

/-- Index box `SAMRAI::hier::Box`: inclusive lower and upper corner per axis. -/
structure Box (dim : Nat) where
  lower : Fin dim → Int
  upper : Fin dim → Int

/-- The part of `SAMRAI::geom::CartesianPatchGeometry` read by `refine_`:
`getDx()` and `getXLower()`. -/
structure CartesianPatchGeometry (dim : Nat) where
  dx : Fin dim → ℚ
  xLower : Fin dim → ℚ

/-- The members of `ParticlesData<dim>` used by `refine_`: the five particle arrays, the
ghost box (`getGhostBox()`) and the domain box (`getBox()`). -/
structure ParticlesData (dim : Nat) where
  domainParticles : List (Particle dim)
  ghostParticles : List (Particle dim)
  coarseToFineParticles : List (Particle dim)
  coarseToFineParticlesOld : List (Particle dim)
  coarseToFineParticlesNew : List (Particle dim)
  ghostBox : Box dim
  box : Box dim

/-- The enum `ParticlesDataSplitType`. -/
inductive ParticlesDataSplitType where
  | coarseBoundary
  | interior
  | coarseBoundary1
  | coarseBoundary2
  deriving DecidableEq, Repr

/-- The constant `isCoarseBoundarySplitType` of `refine_`. -/
def isCoarseBoundarySplitType (splitType : ParticlesDataSplitType) : Bool :=
  splitType == ParticlesDataSplitType.coarseBoundary
    || splitType == ParticlesDataSplitType.coarseBoundary1
    || splitType == ParticlesDataSplitType.coarseBoundary2

/-! ## Arithmetic helpers -/

/-- The conversion `static_cast<int>(x)` of a `double`: truncation toward zero. -/
def truncToInt (x : ℚ) : Int :=
  if 0 ≤ x then ⌊x⌋ else ⌈x⌉

/-- The conversion `static_cast<uint32>(i)` of an `int`: reduction modulo `2^32`. -/
def toUint32 (i : Int) : Nat :=
  (i % 2 ^ 32).toNat

/-- Template function `ghostWidthForParticles<interpOrder>()`, in `std::size_t` (64-bit
unsigned) arithmetic. -/
def ghostWidthForParticles (interpOrder : Nat) : Nat :=
  if interpOrder % 2 = 0 then (interpOrder / 2 + 1) % 2 ^ 64
  else ((interpOrder + 1) % 2 ^ 64) / 2

/-! ## Box algebra and index conversions -/

/-- Modelled from the spec: `SAMRAI::hier::Box::coarsen` (box algebra consumed from the AMR
engine): each corner is divided by the ratio, rounding toward minus infinity. -/
def Box.coarsen {dim : Nat} (b : Box dim) (ratio : Fin dim → Int) : Box dim :=
  { lower := fun d => Int.fdiv (b.lower d) (ratio d)
    upper := fun d => Int.fdiv (b.upper d) (ratio d) }

/-- Modelled from the spec: `SAMRAI::hier::Box::grow` (box algebra consumed from the AMR
engine): the box is widened by `g` cells on both sides of every axis. -/
def Box.grow {dim : Nat} (b : Box dim) (g : Fin dim → Int) : Box dim :=
  { lower := fun d => b.lower d - g d
    upper := fun d => b.upper d + g d }

/-- Modelled from the spec: box intersection `a * b` (box algebra consumed from the AMR
engine): the larger lower corner and the smaller upper corner; the result holds no cell when
the boxes do not meet. -/
def Box.intersect {dim : Nat} (a b : Box dim) : Box dim :=
  { lower := fun d => max (a.lower d) (b.lower d)
    upper := fun d => min (a.upper d) (b.upper d) }

/-- Modelled from the spec: `AMRToLocal` of `tools/amr_utils.h` for a box: conversion from
hierarchy-global indices to indices local to `referenceAMRBox`. -/
def AMRToLocalBox {dim : Nat} (b : Box dim) (referenceAMRBox : Box dim) : Box dim :=
  { lower := fun d => b.lower d - referenceAMRBox.lower d
    upper := fun d => b.upper d - referenceAMRBox.lower d }

/-- Modelled from the spec: `AMRToLocal` of `tools/amr_utils.h` for a cell index. -/
def AMRToLocal {dim : Nat} (index : Fin dim → Int) (referenceAMRBox : Box dim) :
    Fin dim → Int :=
  fun d => index d - referenceAMRBox.lower d

/-- Modelled from the spec: `localToAMR` of `tools/amr_utils.h`: conversion from an index
local to `referenceAMRBox` to the hierarchy-global index. -/
def localToAMR {dim : Nat} (index : Fin dim → Int) (referenceAMRBox : Box dim) :
    Fin dim → Int :=
  fun d => index d + referenceAMRBox.lower d

/-- Modelled from the spec: `refinedPosition` of `tools/amr_utils.h`: the cell index is
scaled by the ratio. -/
def refinedPosition {dim : Nat} (index : Fin dim → Int) (ratio : Fin dim → Int) :
    Fin dim → Int :=
  fun d => index d * ratio d

/-! ## The lambdas of `refine_` -/

/-- Lambda `isInBox`: the particle's cell lies in the box on every axis. -/
def isInBox {dim : Nat} (particle : Particle dim) (localSourceBox : Box dim) : Bool :=
  decide (∀ d : Fin dim,
    particle.iCell d ≥ localSourceBox.lower d ∧ particle.iCell d ≤ localSourceBox.upper d)

/-- Lambda `shiftDeltaAndiCell`, for one axis: from the refined local cell and the coarse
`delta` to the new cell and the new `delta`. The sum and the product are exact here, while
the code rounds them to a `double`; the two agree where the values are representable without
rounding, as in every evaluation below, and not otherwise. -/
def shiftDeltaAndiCell (iCell : Int) (ratio : Int) (delta : ℚ) : Int × ℚ :=
  let normalizedPosition : ℚ := (iCell : ℚ) + (ratio : ℚ) * delta
  let newCell : Int := truncToInt normalizedPosition
  (newCell, normalizedPosition - (newCell : ℚ))

/-- Lambda `shiftParticle`: the coarse particle seen as a particle of the fine level. -/
def shiftParticle {dim : Nat} (sourceGhostBox destinationGhostBox : Box dim)
    (ratio : Fin dim → Int) (particle : Particle dim) : Particle dim :=
  let iCell1 := localToAMR particle.iCell sourceGhostBox
  let iCell2 := refinedPosition iCell1 ratio
  let iCell3 := AMRToLocal iCell2 destinationGhostBox
  { particle with
    iCell := fun d => (shiftDeltaAndiCell (iCell3 d) (ratio d) (particle.delta d)).1
    delta := fun d => (shiftDeltaAndiCell (iCell3 d) (ratio d) (particle.delta d)).2 }

/-- The box `destinationBoxLocalToDomain` of `refine_`. -/
def destinationBoxLocalToDomain {dim : Nat} (destinationBox destinationDomainBox : Box dim) :
    Box dim :=
  AMRToLocalBox destinationBox destinationDomainBox

/-- The coordinate `physicalLowerDestination[dirX]`. -/
def physicalLowerDestination (pGeom : CartesianPatchGeometry 1)
    (destinationBox destinationDomainBox : Box 1) : ℚ :=
  pGeom.xLower dirX
    + pGeom.dx dirX * ((destinationBoxLocalToDomain destinationBox destinationDomainBox).lower dirX : ℚ)

/-- The coordinate `physicalUpperDestination[dirX]`. -/
def physicalUpperDestination (pGeom : CartesianPatchGeometry 1)
    (destinationBox destinationDomainBox : Box 1) : ℚ :=
  pGeom.xLower dirX
    + pGeom.dx dirX
      * (((destinationBoxLocalToDomain destinationBox destinationDomainBox).upper dirX + 1 : Int) : ℚ)

/-- The value `particlesPositionX` computed by `isCandidateForSplit` and `isInSplit`. -/
def particlesPositionX (pGeom : CartesianPatchGeometry 1) (particle : Particle 1) : ℚ :=
  pGeom.xLower dirX + (particle.iCell dirX : ℚ) * pGeom.dx dirX
    + particle.delta dirX * pGeom.dx dirX

/-- The value `maxDistanceX` of `isCandidateForSplit`. The factor of order 3 is the C++
expression `(3 / 2)`, a quotient of two `int` literals. Orders outside 1..3 are excluded by
the `static_assert`; the initial value `0` stands for them. -/
def maxDistanceX (interpOrder : Nat) (pGeom : CartesianPatchGeometry 1) : ℚ :=
  if interpOrder = 1 then (1 / 2 : ℚ) * pGeom.dx dirX
  else if interpOrder = 2 then ((3 / 2 : ℚ) / 2) * pGeom.dx dirX
  else if interpOrder = 3 then (((3 : Int) / (2 : Int) : Int) : ℚ) * pGeom.dx dirX
  else 0

/-- Lambda `isCandidateForSplit` (1D). The distances and `maxDistanceX` are exact here, while
the code compares rounded `double`s; the two agree where the values are representable without
rounding, as in every evaluation below, and can differ at the very edge of the reach. -/
def isCandidateForSplit (interpOrder : Nat) (pGeom : CartesianPatchGeometry 1)
    (physLower physUpper : ℚ) (particle : Particle 1) : Bool :=
  let distanceFromLowerX := |particlesPositionX pGeom particle - physLower|
  let distanceFromUpperX := |particlesPositionX pGeom particle - physUpper|
  decide (distanceFromLowerX ≤ maxDistanceX interpOrder pGeom
    ∨ distanceFromUpperX ≤ maxDistanceX interpOrder pGeom)

/-- Lambda `isInSplit` (1D). -/
def isInSplit (pGeom : CartesianPatchGeometry 1) (physLower physUpper : ℚ)
    (particle : Particle 1) : Bool :=
  decide (particlesPositionX pGeom particle ≥ physLower
    ∧ particlesPositionX pGeom particle ≤ physUpper)

/-! ## The split operator -/

/-- The class `Split<dim, interpOrder>` of `split.h` as `refine_` uses it: the constructor
arguments `refineFactor` and `nbrRefinedParticles`, then the call operator, which maps the
shifted particle to the list of its children in output order. -/
abbrev SplitOperator := Nat → Nat → Particle 1 → List (Particle 1)

/-- The constant `refinedParticleNbr` of `refine_`. -/
def refinedParticleNbr : Nat := 2

/-! ## `refine_` -/

/-- The `push_back` that `refine_` performs for the split type: `interior` appends to
`domainParticles`, `coarseBoundary` to `coarseToFineParticles`, `coarseBoundary1` to
`coarseToFineParticlesOld` and `coarseBoundary2` to `coarseToFineParticlesNew`. -/
def pushBack (splitType : ParticlesDataSplitType) (destination : ParticlesData 1)
    (splittedParticle : Particle 1) : ParticlesData 1 :=
  match splitType with
  | ParticlesDataSplitType.coarseBoundary =>
    { destination with
      coarseToFineParticles := destination.coarseToFineParticles ++ [splittedParticle] }
  | ParticlesDataSplitType.interior =>
    { destination with domainParticles := destination.domainParticles ++ [splittedParticle] }
  | ParticlesDataSplitType.coarseBoundary1 =>
    { destination with
      coarseToFineParticlesOld := destination.coarseToFineParticlesOld ++ [splittedParticle] }
  | ParticlesDataSplitType.coarseBoundary2 =>
    { destination with
      coarseToFineParticlesNew := destination.coarseToFineParticlesNew ++ [splittedParticle] }

/-- The loop over `splittedParticles`: each child that passes `isInSplit` is pushed. -/
def pushSplitted (splitType : ParticlesDataSplitType) (pGeom : CartesianPatchGeometry 1)
    (physLower physUpper : ℚ) (destination : ParticlesData 1)
    (splittedParticles : List (Particle 1)) : ParticlesData 1 :=
  splittedParticles.foldl
    (fun dest splittedParticle =>
      if isInSplit pGeom physLower physUpper splittedParticle then
        pushBack splitType dest splittedParticle
      else dest)
    destination

/-- The box `localSourceBox` of `refine_`: the destination box coarsened, grown by the
particle ghost width, intersected with the source ghost box and made local to it. -/
def localSourceBox {dim : Nat} (interpOrder : Nat) (ratio : Fin dim → Int)
    (sourceGhostBox : Box dim) (destinationBox : Box dim) : Box dim :=
  let sourceBox := destinationBox.coarsen ratio
  let growthVector : Fin dim → Int := fun _ => (ghostWidthForParticles interpOrder : Int)
  let sourceBox := sourceBox.grow growthVector
  let sourceBox := sourceBox.intersect sourceGhostBox
  AMRToLocalBox sourceBox sourceGhostBox

/-- The body of the loop over the particles of one source array. -/
def refineParticle (splitType : ParticlesDataSplitType) (interpOrder : Nat)
    (split : Particle 1 → List (Particle 1)) (sourceGhostBox : Box 1) (ratio : Fin 1 → Int)
    (pGeom : CartesianPatchGeometry 1) (destinationGhostBox destinationDomainBox : Box 1)
    (destinationBox : Box 1) (destination : ParticlesData 1) (particle : Particle 1) :
    ParticlesData 1 :=
  let physLower := physicalLowerDestination pGeom destinationBox destinationDomainBox
  let physUpper := physicalUpperDestination pGeom destinationBox destinationDomainBox
  if isInBox particle (localSourceBox interpOrder ratio sourceGhostBox destinationBox) then
    let shiftedParticle := shiftParticle sourceGhostBox destinationGhostBox ratio particle
    if isCoarseBoundarySplitType splitType then
      if isCandidateForSplit interpOrder pGeom physLower physUpper shiftedParticle then
        pushSplitted splitType pGeom physLower physUpper destination (split shiftedParticle)
      else destination
    else
      pushSplitted splitType pGeom physLower physUpper destination (split shiftedParticle)
  else destination

/-- The body of the loop over the destination boxes: the source domain array, then the
source ghost array. -/
def refineBox (splitType : ParticlesDataSplitType) (interpOrder : Nat)
    (split : Particle 1 → List (Particle 1)) (source : ParticlesData 1) (ratio : Fin 1 → Int)
    (pGeom : CartesianPatchGeometry 1) (destinationGhostBox destinationDomainBox : Box 1)
    (destination : ParticlesData 1) (destinationBox : Box 1) : ParticlesData 1 :=
  let particlesArrays := [source.domainParticles, source.ghostParticles]
  particlesArrays.foldl
    (fun dest sourceParticlesArray =>
      sourceParticlesArray.foldl
        (refineParticle splitType interpOrder split source.ghostBox ratio pGeom
          destinationGhostBox destinationDomainBox destinationBox)
        dest)
    destination

/-- Member function `ParticlesDataSplitOperator<1, interpOrder, splitType>::refine_`: the
destination patch data after the call. `destinationBoxes` is the destination box container
of the cell overlap. The ghost and domain boxes of the destination are read once, before the
loop. -/
def refine_ (splitType : ParticlesDataSplitType) (interpOrder : Nat) (Split : SplitOperator)
    (destinationParticlesData : ParticlesData 1) (sourceParticlesData : ParticlesData 1)
    (destinationBoxes : List (Box 1)) (ratio : Fin 1 → Int)
    (pGeom : CartesianPatchGeometry 1) : ParticlesData 1 :=
  let destinationGhostBox := destinationParticlesData.ghostBox
  let destinationDomainBox := destinationParticlesData.box
  let split := Split (toUint32 (ratio dirX)) refinedParticleNbr
  destinationBoxes.foldl
    (refineBox splitType interpOrder split sourceParticlesData ratio pGeom
      destinationGhostBox destinationDomainBox)
    destinationParticlesData

/-- The destination array that the split type writes to. -/
def targetBuffer (splitType : ParticlesDataSplitType) (d : ParticlesData 1) :
    List (Particle 1) :=
  match splitType with
  | ParticlesDataSplitType.coarseBoundary => d.coarseToFineParticles
  | ParticlesDataSplitType.interior => d.domainParticles
  | ParticlesDataSplitType.coarseBoundary1 => d.coarseToFineParticlesOld
  | ParticlesDataSplitType.coarseBoundary2 => d.coarseToFineParticlesNew

/-! ## `ParticlesDataSplitOperator::refine` -/

/-- The dynamic type of the `SAMRAI::hier::BoxOverlap` argument of `refine`: a
`SAMRAI::pdat::CellOverlap` with its destination box container, or another overlap type. -/
inductive BoxOverlap where
  | cellOverlap (destinationBoxes : List (Box 1))
  | otherOverlap

/-- The dynamic type of a `SAMRAI::hier::PatchData`: a `ParticlesData<dim>`, or another kind
of patch data. -/
inductive PatchData where
  | particlesData (data : ParticlesData 1)
  | otherData

/-- The dynamic type of a `SAMRAI::hier::PatchGeometry`: a `CartesianPatchGeometry`, or
another geometry. -/
inductive PatchGeometry where
  | cartesian (geometry : CartesianPatchGeometry 1)
  | otherGeometry

/-- The part of `SAMRAI::hier::Patch` read by `refine`: `getPatchData(component)` and
`getPatchGeometry()`. -/
structure Patch where
  getPatchData : Int → PatchData
  getPatchGeometry : PatchGeometry

/-- The ways `refine` ends without reaching `refine_`: `std::bad_cast` from the
`dynamic_cast` to a reference, or a failed `TBOX_ASSERT`. -/
inductive RefineFailure where
  | badCast
  | assertionFailed
  deriving DecidableEq, Repr

/-- The outcome of `refine`: the destination patch after the call and, when the call did not
complete, the failure. -/
structure RefineOutcome where
  destination : Patch
  failure : Option RefineFailure

/-- The expression `std::dynamic_pointer_cast<ParticlesData<dim>>(patchData)`: the particle
data, or a null pointer. -/
def dynamicPointerCastParticlesData (patchData : PatchData) : Option (ParticlesData 1) :=
  match patchData with
  | PatchData.particlesData data => some data
  | PatchData.otherData => none

/-- The expression `std::dynamic_pointer_cast<CartesianPatchGeometry>(geometry)`: the
Cartesian geometry, or a null pointer. -/
def dynamicPointerCastCartesian (geometry : PatchGeometry) :
    Option (CartesianPatchGeometry 1) :=
  match geometry with
  | PatchGeometry.cartesian g => some g
  | PatchGeometry.otherGeometry => none

/-- The expression `dynamic_cast<SAMRAI::pdat::CellOverlap const&>(fineOverlap)`: the
destination box container of the cell overlap, or `std::bad_cast`. -/
def dynamicCastCellOverlap (fineOverlap : BoxOverlap) : Except RefineFailure (List (Box 1)) :=
  match fineOverlap with
  | BoxOverlap.cellOverlap destinationBoxes => Except.ok destinationBoxes
  | BoxOverlap.otherOverlap => Except.error RefineFailure.badCast

/-- Modelled from the spec: the SAMRAI macro `TBOX_ASSERT` applied to a pointer, followed by
the use of the pointee. The macro is not among the sources; by section 7 a contract violation
is fatal (assert), never recovered, so the assertion is a checked one: a null pointer ends
the call, a non-null pointer gives its pointee. -/
def TBOX_ASSERT {α : Type} (pointer : Option α) : Except RefineFailure α :=
  match pointer with
  | some pointee => Except.ok pointee
  | none => Except.error RefineFailure.assertionFailed

/-- The body of `refine`: the casts, the three assertions in source order, then the call of
`refine_`; the result is the destination particle data after `refine_`. -/
def refineBody (splitType : ParticlesDataSplitType) (interpOrder : Nat) (Split : SplitOperator)
    (destination source : Patch) (destinationComponent sourceComponent : Int)
    (fineOverlap : BoxOverlap) (ratio : Fin 1 → Int) :
    Except RefineFailure (ParticlesData 1) := do
  let destinationBoxes ← dynamicCastCellOverlap fineOverlap
  let destinationParticlesData :=
    dynamicPointerCastParticlesData (destination.getPatchData destinationComponent)
  let sourceParticlesData :=
    dynamicPointerCastParticlesData (source.getPatchData sourceComponent)
  let pGeom := dynamicPointerCastCartesian destination.getPatchGeometry
  let destinationData ← TBOX_ASSERT destinationParticlesData
  let sourceData ← TBOX_ASSERT sourceParticlesData
  let geometry ← TBOX_ASSERT pGeom
  pure (refine_ splitType interpOrder Split destinationData sourceData destinationBoxes ratio
    geometry)

/-- Member function `ParticlesDataSplitOperator<1, interpOrder, splitType>::refine`: when the
body completes, the destination patch holds the refined particle data in
`destinationComponent`; when it does not, the destination patch is as it was on entry, since
nothing is written before `refine_`. -/
def refine (splitType : ParticlesDataSplitType) (interpOrder : Nat) (Split : SplitOperator)
    (destination source : Patch) (destinationComponent sourceComponent : Int)
    (fineOverlap : BoxOverlap) (ratio : Fin 1 → Int) : RefineOutcome :=
  match refineBody splitType interpOrder Split destination source destinationComponent
      sourceComponent fineOverlap ratio with
  | Except.ok refined =>
    { destination :=
        { destination with
          getPatchData := Function.update destination.getPatchData destinationComponent
            (PatchData.particlesData refined) }
      failure := none }
  | Except.error failure => { destination := destination, failure := some failure }

/-! ## `HybridHybridMessengerStrategy` -/

/-- The nine `Communicators` members of `HybridHybridMessengerStrategy`. -/
inductive CommunicatorsMember where
  | magneticGhosts_
  | magneticInit_
  | electricGhosts_
  | electricInit_
  | ionBulkInit_
  | ionDensityInit_
  | interiorParticles_
  | coarseToFineParticles_
  | ghostParticles_
  deriving DecidableEq, Repr

/-- The refine operators held by the strategy, and the null operator passed for the ghost
particles. -/
inductive RefineOperatorMember where
  | fieldRefineOp_
  | interiorParticleRefineOp_
  | coarseToFineRefineOp_
  | nullOperator
  deriving DecidableEq, Repr

/-- The type `VecFieldDescriptor` of `hybrid_messenger_info.h`, by the member the strategy
reads: `vecName`. -/
structure VecFieldDescriptor where
  vecName : String
  deriving DecidableEq, Repr

/-- The members of `HybridMessengerInfo` read by the strategy. The first seven are
`VecFieldDescriptor`s or vectors of them, the last four are vectors of names. -/
structure HybridMessengerInfo where
  modelMagnetic : VecFieldDescriptor
  modelElectric : VecFieldDescriptor
  ghostElectric : List VecFieldDescriptor
  ghostMagnetic : List VecFieldDescriptor
  initMagnetic : List VecFieldDescriptor
  initElectric : List VecFieldDescriptor
  initIonBulk : List VecFieldDescriptor
  initIonDensity : List String
  interiorParticles : List String
  coarseToFineParticles : List String
  ghostParticles : List String
  deriving DecidableEq, Repr

/-- The descriptor argument of `Communicators::add`: a `VecFieldDescriptor` or a name. -/
inductive Descriptor where
  | vecField (descriptor : VecFieldDescriptor)
  | name (descriptor : String)
  deriving DecidableEq, Repr

/-- A vector field argument (`VecFieldT&`), by its name. -/
structure VecField where
  name : String
  deriving DecidableEq, Repr

/-- A patch level (`SAMRAI::hier::PatchLevel`), by the identifiers of its patches in
iteration order. -/
structure PatchLevel where
  patches : List Nat
  deriving DecidableEq, Repr

/-- A patch hierarchy (`SAMRAI::hier::PatchHierarchy`), by `getPatchLevel`. -/
structure PatchHierarchy where
  getPatchLevel : Int → PatchLevel

/-- One call of a member function of a `Communicators` object (`communicators.h`), with the
member it is called on and its arguments. The resources manager and, for ghost fields, the
refine and time operators of the strategy are the same in every call and are left out.
`initializeOn` is the member function `initialize`. -/
inductive CommunicatorsCall where
  | addGhostField (communicators : CommunicatorsMember)
      (ghostVec modelVec oldModelVec : VecFieldDescriptor) (key : String)
  | add (communicators : CommunicatorsMember) (descriptor : Descriptor)
      (refineOp : RefineOperatorMember) (key : String)
  | registerLevel (communicators : CommunicatorsMember) (hierarchy : PatchHierarchy)
      (level : PatchLevel)
  | regrid (communicators : CommunicatorsMember) (hierarchy : PatchHierarchy)
      (levelNumber : Int) (oldLevel : PatchLevel) (initDataTime : ℚ)
  | initializeOn (communicators : CommunicatorsMember) (levelNumber : Int) (initDataTime : ℚ)
  | fillGhosts (communicators : CommunicatorsMember) (field : VecField) (levelNumber : Int)
      (fillTime : ℚ)

/-- The behaviour of the `Communicators` class, which is not among the sources: what a call
does to the state `σ` of the communicators, or the exception `ε` it throws. It is a
parameter of every member function of the strategy. -/
abbrev CommunicatorsSemantics (σ ε : Type) := CommunicatorsCall → σ → Except ε σ

/-- Sequential execution of calls: the first exception ends the sequence and reaches the
caller. -/
def performAll {σ ε : Type} (perform : CommunicatorsSemantics σ ε)
    (calls : List CommunicatorsCall) (state : σ) : Except ε σ :=
  calls.foldlM (fun s call => perform call s) state

/-- The constant `rootLevelNumber`. -/
def rootLevelNumber : Nat := 0

/-- First overload of `makeCommunicators_`: one `add` per ghost descriptor, keyed by its
`vecName`. -/
def makeCommunicatorsGhost_ {σ ε : Type} (perform : CommunicatorsSemantics σ ε)
    (ghostVecs : List VecFieldDescriptor) (modelVec oldModelVec : VecFieldDescriptor)
    (communicators : CommunicatorsMember) (state : σ) : Except ε σ :=
  ghostVecs.foldlM
    (fun s ghostVec =>
      perform (CommunicatorsCall.addGhostField communicators ghostVec modelVec oldModelVec
        ghostVec.vecName) s)
    state

/-- Second overload of `makeCommunicators_`: one `add` per descriptor, with the keys taken
in order (`*key++`). -/
def makeCommunicators_ {σ ε : Type} (perform : CommunicatorsSemantics σ ε)
    (descriptors : List Descriptor) (refineOp : RefineOperatorMember)
    (communicators : CommunicatorsMember) (keys : List String) (state : σ) : Except ε σ :=
  (descriptors.zip keys).foldlM
    (fun s descriptorAndKey =>
      perform (CommunicatorsCall.add communicators descriptorAndKey.1 refineOp
        descriptorAndKey.2) s)
    state

/-- Lambda `makeKeys` of `registerInitQuantities_`. -/
def makeKeys (descriptor : List VecFieldDescriptor) : List String :=
  descriptor.map (fun d => d.vecName)

/-- Member function `registerGhostsQuantities_`. `Eold` and `Bold` are the descriptors
`VecFieldDescriptor{EM_old_.E}` and `VecFieldDescriptor{EM_old_.B}`. -/
def registerGhostsQuantities_ {σ ε : Type} (perform : CommunicatorsSemantics σ ε)
    (Eold Bold : VecFieldDescriptor) (info : HybridMessengerInfo) (state : σ) : Except ε σ := do
  let state ← makeCommunicatorsGhost_ perform info.ghostElectric info.modelElectric Eold
    CommunicatorsMember.electricGhosts_ state
  makeCommunicatorsGhost_ perform info.ghostMagnetic info.modelMagnetic Bold
    CommunicatorsMember.magneticGhosts_ state

/-- Member function `registerInitQuantities_`. -/
def registerInitQuantities_ {σ ε : Type} (perform : CommunicatorsSemantics σ ε)
    (info : HybridMessengerInfo) (state : σ) : Except ε σ := do
  let state ← makeCommunicators_ perform (info.initMagnetic.map Descriptor.vecField)
    RefineOperatorMember.fieldRefineOp_ CommunicatorsMember.magneticInit_
    (makeKeys info.initMagnetic) state
  let state ← makeCommunicators_ perform (info.initElectric.map Descriptor.vecField)
    RefineOperatorMember.fieldRefineOp_ CommunicatorsMember.electricInit_
    (makeKeys info.initElectric) state
  let state ← makeCommunicators_ perform (info.initIonBulk.map Descriptor.vecField)
    RefineOperatorMember.fieldRefineOp_ CommunicatorsMember.ionBulkInit_
    (makeKeys info.initIonBulk) state
  let state ← makeCommunicators_ perform (info.initIonDensity.map Descriptor.name)
    RefineOperatorMember.fieldRefineOp_ CommunicatorsMember.ionDensityInit_
    info.initIonDensity state
  let state ← makeCommunicators_ perform (info.interiorParticles.map Descriptor.name)
    RefineOperatorMember.interiorParticleRefineOp_ CommunicatorsMember.interiorParticles_
    info.interiorParticles state
  let state ← makeCommunicators_ perform (info.coarseToFineParticles.map Descriptor.name)
    RefineOperatorMember.coarseToFineRefineOp_ CommunicatorsMember.coarseToFineParticles_
    info.coarseToFineParticles state
  makeCommunicators_ perform (info.ghostParticles.map Descriptor.name)
    RefineOperatorMember.nullOperator CommunicatorsMember.ghostParticles_
    info.ghostParticles state

/-- Member function `registerQuantities`, for a `fromCoarserInfo` whose dynamic type is
`HybridMessengerInfo` (the result of the `dynamic_cast` is used unchecked). -/
def registerQuantities {σ ε : Type} (perform : CommunicatorsSemantics σ ε)
    (Eold Bold : VecFieldDescriptor) (hybridInfo : HybridMessengerInfo) (state : σ) :
    Except ε σ := do
  let state ← registerGhostsQuantities_ perform Eold Bold hybridInfo state
  registerInitQuantities_ perform hybridInfo state

/-- Member function `registerLevel`. The comparison `levelNumber != rootLevelNumber` is made
after conversion of the `int` to `std::size_t`, which maps only 0 to 0. -/
def registerLevel {σ ε : Type} (perform : CommunicatorsSemantics σ ε)
    (hierarchy : PatchHierarchy) (levelNumber : Int) (state : σ) : Except ε σ := do
  let level := hierarchy.getPatchLevel levelNumber
  let state ← perform
    (CommunicatorsCall.registerLevel CommunicatorsMember.magneticGhosts_ hierarchy level) state
  let state ← perform
    (CommunicatorsCall.registerLevel CommunicatorsMember.electricGhosts_ hierarchy level) state
  let state ← perform
    (CommunicatorsCall.registerLevel CommunicatorsMember.ghostParticles_ hierarchy level) state
  if levelNumber ≠ (rootLevelNumber : Int) then
    let state ← perform
      (CommunicatorsCall.registerLevel CommunicatorsMember.magneticInit_ hierarchy level) state
    let state ← perform
      (CommunicatorsCall.registerLevel CommunicatorsMember.electricInit_ hierarchy level) state
    let state ← perform
      (CommunicatorsCall.registerLevel CommunicatorsMember.ionBulkInit_ hierarchy level) state
    let state ← perform
      (CommunicatorsCall.registerLevel CommunicatorsMember.ionDensityInit_ hierarchy level)
      state
    let state ← perform
      (CommunicatorsCall.registerLevel CommunicatorsMember.interiorParticles_ hierarchy level)
      state
    perform
      (CommunicatorsCall.registerLevel CommunicatorsMember.coarseToFineParticles_ hierarchy
        level) state
  else
    pure state

/-- Member function `regrid`. -/
def regrid {σ ε : Type} (perform : CommunicatorsSemantics σ ε) (hierarchy : PatchHierarchy)
    (levelNumber : Int) (oldLevel : PatchLevel) (initDataTime : ℚ) (state : σ) :
    Except ε σ := do
  let state ← perform
    (CommunicatorsCall.regrid CommunicatorsMember.magneticInit_ hierarchy levelNumber oldLevel
      initDataTime) state
  let state ← perform
    (CommunicatorsCall.regrid CommunicatorsMember.electricInit_ hierarchy levelNumber oldLevel
      initDataTime) state
  let state ← perform
    (CommunicatorsCall.regrid CommunicatorsMember.ionBulkInit_ hierarchy levelNumber oldLevel
      initDataTime) state
  perform
    (CommunicatorsCall.regrid CommunicatorsMember.ionDensityInit_ hierarchy levelNumber oldLevel
      initDataTime) state

/-- Member function `initLevel`. -/
def initLevel {σ ε : Type} (perform : CommunicatorsSemantics σ ε) (levelNumber : Int)
    (initDataTime : ℚ) (state : σ) : Except ε σ := do
  let state ← perform
    (CommunicatorsCall.initializeOn CommunicatorsMember.magneticInit_ levelNumber initDataTime)
    state
  let state ← perform
    (CommunicatorsCall.initializeOn CommunicatorsMember.electricInit_ levelNumber initDataTime)
    state
  let state ← perform
    (CommunicatorsCall.initializeOn CommunicatorsMember.ionBulkInit_ levelNumber initDataTime)
    state
  let state ← perform
    (CommunicatorsCall.initializeOn CommunicatorsMember.ionDensityInit_ levelNumber initDataTime)
    state
  let state ← perform
    (CommunicatorsCall.initializeOn CommunicatorsMember.interiorParticles_ levelNumber
      initDataTime) state
  let state ← perform
    (CommunicatorsCall.initializeOn CommunicatorsMember.coarseToFineParticles_ levelNumber
      initDataTime) state
  perform
    (CommunicatorsCall.initializeOn CommunicatorsMember.ghostParticles_ levelNumber initDataTime)
    state

/-- Member function `fillMagneticGhosts`. -/
def fillMagneticGhosts {σ ε : Type} (perform : CommunicatorsSemantics σ ε) (B : VecField)
    (levelNumber : Int) (fillTime : ℚ) (state : σ) : Except ε σ :=
  perform (CommunicatorsCall.fillGhosts CommunicatorsMember.magneticGhosts_ B levelNumber
    fillTime) state

/-- Member function `fillElectricGhosts`. -/
def fillElectricGhosts {σ ε : Type} (perform : CommunicatorsSemantics σ ε) (E : VecField)
    (levelNumber : Int) (fillTime : ℚ) (state : σ) : Except ε σ :=
  perform (CommunicatorsCall.fillGhosts CommunicatorsMember.electricGhosts_ E levelNumber
    fillTime) state

/-- A semantics that records the calls made: each call is appended to the log; a call that
`fails` throws, and the exception carries the log up to and including that call. -/
def recordCall (fails : CommunicatorsCall → Bool) :
    CommunicatorsSemantics (List CommunicatorsCall) (List CommunicatorsCall) :=
  fun call log => if fails call then Except.error (log ++ [call]) else Except.ok (log ++ [call])

/-- The semantics in which no call throws. -/
def neverFails : CommunicatorsCall → Bool := fun _ => false

/-! ## `lastStep` -/

/-- The electromagnetic field storage that `lastStep` works on, per patch identifier: the
storage of the model's `state.electromag` and the storage of the strategy's `EM_old_`.
`Data` is the type of the values an electromagnetic field holds on one patch. -/
structure ElectromagStorage (Data : Type) where
  modelElectromag : Nat → Data
  EM_old_ : Nat → Data

/-- Modelled from the spec: `Electromag::copyData` (not among the sources) copies the current
values of its argument into the receiver. -/
def copyData {Data : Type} (_receiver source : Data) : Data :=
  source

/-- Member function `lastStep`. Modelled from the spec: `ResourcesManager::setOnPatch` (not
among the sources) makes `hybridModel.state.electromag` and `EM_old_` refer to their storage
on the patch for the life of `dataOnPatch`, that is for one iteration of the loop. -/
def lastStep {Data : Type} (level : PatchLevel) (storage : ElectromagStorage Data) :
    ElectromagStorage Data :=
  level.patches.foldl
    (fun st patch =>
      let EM := st.modelElectromag patch
      { st with EM_old_ := Function.update st.EM_old_ patch (copyData (st.EM_old_ patch) EM) })
    storage

/-- Member function `getStencilWidth`: the particle ghost width on every axis. The value is
a constant expression that fits an `int`, else the brace initialisation does not compile. -/
def getStencilWidth (interpOrder : Nat) (dim : Nat) : Fin dim → Int :=
  fun _ => (ghostWidthForParticles interpOrder : Int)

/-! ## The no-op member functions of the strategy -/

/-- What a member function of the strategy that takes one argument by reference can change:
the argument itself (a field or the ions), the state of the nine communicators, the
electromagnetic storage (model field and `EM_old_`), and the text sent to `std::cout`. -/
structure StrategyWorld (Arg σ Data : Type) where
  argument : Arg
  communicators : σ
  storage : ElectromagStorage Data
  stdout : List String

/-- Member function `syncMagnetic`. -/
def syncMagnetic {Field σ Data : Type} (world : StrategyWorld Field σ Data) :
    StrategyWorld Field σ Data :=
  { world with
    stdout := world.stdout ++ ["perform coarse magnetic sync to the next coarser level\n"] }

/-- Member function `syncElectric`. -/
def syncElectric {Field σ Data : Type} (world : StrategyWorld Field σ Data) :
    StrategyWorld Field σ Data :=
  { world with
    stdout := world.stdout ++ ["perform coarse electric sync to the next coarser level\n"] }

/-- Member function `syncIonMoments`. -/
def syncIonMoments {Ions σ Data : Type} (world : StrategyWorld Ions σ Data) :
    StrategyWorld Ions σ Data :=
  { world with
    stdout := world.stdout ++ ["perform coarse moments sync to the next coarser level\n"] }

/-- Member function `fillIonGhostParticles`; the ions are the list of their populations. The
loop over the populations has a body of comments only. -/
def fillIonGhostParticles {Population σ Data : Type}
    (world : StrategyWorld (List Population) σ Data) (_levelNumber : Int) (_fillTime : ℚ) :
    StrategyWorld (List Population) σ Data :=
  let world := { world with stdout := world.stdout ++ ["perform the ghost particle fill\n"] }
  { world with argument := world.argument.map (fun pop => pop) }

/-- Member function `fillIonMomentGhosts`. -/
def fillIonMomentGhosts {Ions σ Data : Type} (world : StrategyWorld Ions σ Data)
    (_levelNumber : Int) (_fillTime : ℚ) : StrategyWorld Ions σ Data :=
  { world with stdout := world.stdout ++ ["perform the moments ghosts fill\n"] }

/-! ## `Point` -/

/-- Class `Point<Type, dim>`: the private member `std::array<Type, dim> r`. -/
structure Point (T : Type) (dim : Nat) where
  r : Fin dim → T

/-- Variadic constructor `Point(Indexes... index) : r{{index...}}`; the `static_assert`
requires exactly `dim` arguments. -/
def Point.ofArguments {T : Type} {dim : Nat} (index : List T) (hCount : index.length = dim) :
    Point T dim :=
  { r := fun i => index.get ⟨i.val, by rw [hCount]; exact i.isLt⟩ }

/-- Constructor `Point(std::array<Type, dim> coords)`. -/
def Point.ofArray {T : Type} {dim : Nat} (coords : Fin dim → T) : Point T dim :=
  { r := coords }

/-- Constructor `Point(Container c)` for a subscriptable container: the loop
`for (int i = 0; i < dim; ++i) r[i] = c[i]`, run on the default-initialised member, whose
contents `uninitialised` are not specified. -/
def Point.ofContainer {T : Type} {dim : Nat} (c : Nat → T) (uninitialised : Fin dim → T) :
    Point T dim :=
  { r := (List.finRange dim).foldl (fun r i => Function.update r i (c i.val)) uninitialised }

/-- Default constructor: `r.fill(static_cast<Type>(0))`. -/
def Point.default {T : Type} [Zero T] {dim : Nat} : Point T dim :=
  { r := fun _ => 0 }

/-- Subscript `operator[]` read through the `const` overload, for an index below `dim`. -/
def Point.get {T : Type} {dim : Nat} (p : Point T dim) (i : Fin dim) : T :=
  p.r i

/-- Assignment through the reference returned by `operator[]`, `p[i] = value`. -/
def Point.set {T : Type} {dim : Nat} (p : Point T dim) (i : Fin dim) (value : T) :
    Point T dim :=
  { r := Function.update p.r i value }

/-! ## Model of the split operator -/

/-- Modelled from the spec: one child of the call operator of `Split` (`split.h` is not among
the sources): the parent displaced by `shift` cells along X, renormalised so that `delta`
stays in `[0,1)`, carrying the share `1 / nbrChildren` of the parent's weight. -/
def splitChild (nbrChildren : Nat) (shift : ℚ) (parent : Particle 1) : Particle 1 :=
  let position : ℚ := parent.delta dirX + shift
  { parent with
    weight := parent.weight / (nbrChildren : ℚ)
    iCell := fun _ => parent.iCell dirX + ⌊position⌋
    delta := fun _ => position - (⌊position⌋ : ℚ) }

/-- Modelled from the spec: the call operator of `Split` (`split.h` is not among the sources).
Section 4.1: from one fine-index-space particle and an even child count `N` it returns `N`
children whose weights sum to the parent's weight, as a pure function of its input.
Section 8: the children are symmetric around the parent's position. The children come in
`N / 2` pairs, pair `k` at distance `offset k` on either side of the parent; the table
`offset` of the absent operator is a parameter. -/
def splitModel (offset : Nat → ℚ) : SplitOperator :=
  fun _refineFactor nbrChildren parent =>
    (List.range (nbrChildren / 2)).flatMap
      (fun k => [splitChild nbrChildren (-(offset k)) parent,
                 splitChild nbrChildren (offset k) parent])

/-! ## Statement-side definitions -/

/-- The destination patch data with the array of the split type replaced by `l`. -/
def setTargetBuffer (splitType : ParticlesDataSplitType) (d : ParticlesData 1)
    (l : List (Particle 1)) : ParticlesData 1 :=
  match splitType with
  | ParticlesDataSplitType.coarseBoundary => { d with coarseToFineParticles := l }
  | ParticlesDataSplitType.interior => { d with domainParticles := l }
  | ParticlesDataSplitType.coarseBoundary1 => { d with coarseToFineParticlesOld := l }
  | ParticlesDataSplitType.coarseBoundary2 => { d with coarseToFineParticlesNew := l }

/-- The children that one source particle contributes for one destination box. -/
def producedForParticle (splitType : ParticlesDataSplitType) (interpOrder : Nat)
    (split : Particle 1 → List (Particle 1)) (sourceGhostBox : Box 1) (ratio : Fin 1 → Int)
    (pGeom : CartesianPatchGeometry 1) (destinationGhostBox destinationDomainBox : Box 1)
    (destinationBox : Box 1) (particle : Particle 1) : List (Particle 1) :=
  if isInBox particle (localSourceBox interpOrder ratio sourceGhostBox destinationBox)
      && (!isCoarseBoundarySplitType splitType
          || isCandidateForSplit interpOrder pGeom
              (physicalLowerDestination pGeom destinationBox destinationDomainBox)
              (physicalUpperDestination pGeom destinationBox destinationDomainBox)
              (shiftParticle sourceGhostBox destinationGhostBox ratio particle)) then
    (split (shiftParticle sourceGhostBox destinationGhostBox ratio particle)).filter
      (isInSplit pGeom (physicalLowerDestination pGeom destinationBox destinationDomainBox)
        (physicalUpperDestination pGeom destinationBox destinationDomainBox))
  else []

/-- The children contributed for one destination box: source domain array, then source
ghost array. -/
def producedForBox (splitType : ParticlesDataSplitType) (interpOrder : Nat)
    (split : Particle 1 → List (Particle 1)) (source : ParticlesData 1) (ratio : Fin 1 → Int)
    (pGeom : CartesianPatchGeometry 1) (destinationGhostBox destinationDomainBox : Box 1)
    (destinationBox : Box 1) : List (Particle 1) :=
  [source.domainParticles, source.ghostParticles].flatMap
    (fun sourceParticlesArray =>
      sourceParticlesArray.flatMap
        (producedForParticle splitType interpOrder split source.ghostBox ratio pGeom
          destinationGhostBox destinationDomainBox destinationBox))

/-- The children contributed by a whole call, destination box after destination box. -/
def produced (splitType : ParticlesDataSplitType) (interpOrder : Nat) (Split : SplitOperator)
    (source : ParticlesData 1) (ratio : Fin 1 → Int) (pGeom : CartesianPatchGeometry 1)
    (destinationGhostBox destinationDomainBox : Box 1) (destinationBoxes : List (Box 1)) :
    List (Particle 1) :=
  destinationBoxes.flatMap
    (producedForBox splitType interpOrder (Split (toUint32 (ratio dirX)) refinedParticleNbr)
      source ratio pGeom destinationGhostBox destinationDomainBox)

/-! ## Example inputs -/

/-- A 1D particle with unit charge and zero velocity. -/
def mkParticle (weight : ℚ) (iCell : Int) (delta : ℚ) : Particle 1 :=
  { weight := weight, charge := 1, iCell := fun _ => iCell, delta := fun _ => delta,
    v := fun _ => 0 }

/-- A 1D box. -/
def mkBox (lower upper : Int) : Box 1 :=
  { lower := fun _ => lower, upper := fun _ => upper }

/-- Refinement ratio 2. -/
def ratioTwo : Fin 1 → Int := fun _ => 2

/-- Unit mesh size with the patch origin at 0. -/
def unitGeometry : CartesianPatchGeometry 1 :=
  { dx := fun _ => 1, xLower := fun _ => 0 }

/-- A split table with every pair a quarter of a cell away from the parent. -/
def quarterOffset : Nat → ℚ := fun _ => 1 / 4

/-- A fine patch with domain box `[10, 19]` and ghost box `[9, 20]` (ghost width 1), holding
one particle in `coarseToFineParticles`. -/
def fineData : ParticlesData 1 :=
  { domainParticles := []
    ghostParticles := []
    coarseToFineParticles := [mkParticle 7 3 0]
    coarseToFineParticlesOld := []
    coarseToFineParticlesNew := []
    ghostBox := mkBox 9 20
    box := mkBox 10 19 }

/-- A coarse patch with domain box `[4, 11]` and ghost box `[3, 12]`, holding one domain
particle in the coarse cell of global index 4 (local index 1) at `delta = 3/4`. -/
def coarseData : ParticlesData 1 :=
  { domainParticles := [mkParticle 1 1 (3 / 4)]
    ghostParticles := []
    coarseToFineParticles := []
    coarseToFineParticlesOld := []
    coarseToFineParticlesNew := []
    ghostBox := mkBox 3 12
    box := mkBox 4 11 }

/-- A coarse patch with domain box `[4, 11]` and ghost box `[3, 12]`, holding one domain
particle in the coarse cell of global index 7 (local index 4) at `delta = 1/8`. -/
def coarseDataFace : ParticlesData 1 :=
  { domainParticles := [mkParticle 1 4 (1 / 8)]
    ghostParticles := []
    coarseToFineParticles := []
    coarseToFineParticlesOld := []
    coarseToFineParticlesNew := []
    ghostBox := mkBox 3 12
    box := mkBox 4 11 }

/-- A patch that holds the particle data `fineData` in component 0, another kind of patch
data in every other component, and a Cartesian geometry. -/
def finePatch : Patch :=
  { getPatchData := fun component =>
      if component = 0 then PatchData.particlesData fineData else PatchData.otherData
    getPatchGeometry := PatchGeometry.cartesian unitGeometry }

/-- A patch that holds the particle data `coarseData` in component 0 and another kind of
patch data in every other component. -/
def coarsePatch : Patch :=
  { getPatchData := fun component =>
      if component = 0 then PatchData.particlesData coarseData else PatchData.otherData
    getPatchGeometry := PatchGeometry.cartesian unitGeometry }

/-- A hierarchy whose level `n` holds the single patch `n`. -/
def oneHierarchy : PatchHierarchy :=
  { getPatchLevel := fun levelNumber => { patches := [levelNumber.toNat] } }

/-- A messenger info with no ghost electric and no ghost magnetic descriptor, and one
magnetic field to initialise. -/
def infoWithoutGhosts : HybridMessengerInfo :=
  { modelMagnetic := { vecName := "B" }
    modelElectric := { vecName := "E" }
    ghostElectric := []
    ghostMagnetic := []
    initMagnetic := [{ vecName := "B" }]
    initElectric := []
    initIonBulk := []
    initIonDensity := []
    interiorParticles := []
    coarseToFineParticles := []
    ghostParticles := [] }

/-! ## Lemmas on the loops -/

theorem targetBuffer_setTargetBuffer (t : ParticlesDataSplitType) (d : ParticlesData 1)
    (l : List (Particle 1)) : targetBuffer t (setTargetBuffer t d l) = l := by
  cases t <;> rfl

theorem setTargetBuffer_setTargetBuffer (t : ParticlesDataSplitType) (d : ParticlesData 1)
    (l l' : List (Particle 1)) :
    setTargetBuffer t (setTargetBuffer t d l) l' = setTargetBuffer t d l' := by
  cases t <;> rfl

theorem setTargetBuffer_targetBuffer (t : ParticlesDataSplitType) (d : ParticlesData 1) :
    setTargetBuffer t d (targetBuffer t d) = d := by
  cases t <;> rfl

theorem pushBack_eq (t : ParticlesDataSplitType) (d : ParticlesData 1) (c : Particle 1) :
    pushBack t d c = setTargetBuffer t d (targetBuffer t d ++ [c]) := by
  cases t <;> rfl

/-- A loop whose body appends `g a` to the target array appends `l.flatMap g` in all. -/
theorem foldl_append_target {α : Type} (t : ParticlesDataSplitType)
    (f : ParticlesData 1 → α → ParticlesData 1) (g : α → List (Particle 1))
    (hf : ∀ d a, f d a = setTargetBuffer t d (targetBuffer t d ++ g a)) :
    ∀ (l : List α) (d : ParticlesData 1),
      l.foldl f d = setTargetBuffer t d (targetBuffer t d ++ l.flatMap g) := by
  intro l
  induction l with
  | nil => intro d; simp [setTargetBuffer_targetBuffer]
  | cons a l ih =>
    intro d
    rw [List.foldl_cons, ih, hf, setTargetBuffer_setTargetBuffer, targetBuffer_setTargetBuffer,
      List.flatMap_cons, List.append_assoc]

theorem flatMap_ite_singleton {α : Type} (q : α → Bool) (l : List α) :
    l.flatMap (fun a => if q a then [a] else []) = l.filter q := by
  induction l with
  | nil => rfl
  | cons a l ih =>
    rw [List.flatMap_cons, ih]
    cases h : q a <;> simp [h]

theorem pushSplitted_eq (t : ParticlesDataSplitType) (pGeom : CartesianPatchGeometry 1)
    (lo up : ℚ) (d : ParticlesData 1) (cs : List (Particle 1)) :
    pushSplitted t pGeom lo up d cs
      = setTargetBuffer t d (targetBuffer t d ++ cs.filter (isInSplit pGeom lo up)) := by
  unfold pushSplitted
  rw [foldl_append_target t _ (fun c => if isInSplit pGeom lo up c then [c] else []),
    flatMap_ite_singleton]
  intro d c
  by_cases h : isInSplit pGeom lo up c = true
  · simp [h, pushBack_eq]
  · simp [h, setTargetBuffer_targetBuffer]

theorem refineParticle_eq (t : ParticlesDataSplitType) (interpOrder : Nat)
    (split : Particle 1 → List (Particle 1)) (sourceGhostBox : Box 1) (ratio : Fin 1 → Int)
    (pGeom : CartesianPatchGeometry 1) (dGhost dDomain : Box 1) (destinationBox : Box 1)
    (d : ParticlesData 1) (p : Particle 1) :
    refineParticle t interpOrder split sourceGhostBox ratio pGeom dGhost dDomain
        destinationBox d p
      = setTargetBuffer t d (targetBuffer t d
          ++ producedForParticle t interpOrder split sourceGhostBox ratio pGeom dGhost dDomain
              destinationBox p) := by
  unfold refineParticle producedForParticle
  simp only [pushSplitted_eq]
  by_cases h1 : isInBox p (localSourceBox interpOrder ratio sourceGhostBox destinationBox) = true
  · by_cases h2 : isCoarseBoundarySplitType t = true
    · by_cases h3 : isCandidateForSplit interpOrder pGeom
          (physicalLowerDestination pGeom destinationBox dDomain)
          (physicalUpperDestination pGeom destinationBox dDomain)
          (shiftParticle sourceGhostBox dGhost ratio p) = true
      · simp [h1, h2, h3]
      · simp [h1, h2, h3, setTargetBuffer_targetBuffer]
    · simp [h1, h2]
  · simp [h1, setTargetBuffer_targetBuffer]

theorem refineBox_eq (t : ParticlesDataSplitType) (interpOrder : Nat)
    (split : Particle 1 → List (Particle 1)) (source : ParticlesData 1) (ratio : Fin 1 → Int)
    (pGeom : CartesianPatchGeometry 1) (dGhost dDomain : Box 1)
    (d : ParticlesData 1) (destinationBox : Box 1) :
    refineBox t interpOrder split source ratio pGeom dGhost dDomain d destinationBox
      = setTargetBuffer t d (targetBuffer t d
          ++ producedForBox t interpOrder split source ratio pGeom dGhost dDomain
              destinationBox) := by
  unfold refineBox producedForBox
  exact foldl_append_target t _ _
    (fun d arr => foldl_append_target t _ _
      (refineParticle_eq t interpOrder split source.ghostBox ratio pGeom dGhost dDomain
        destinationBox) arr d) _ d

/-- The whole call: the target array receives `produced`, nothing else changes. -/
theorem refine__eq (t : ParticlesDataSplitType) (interpOrder : Nat) (Split : SplitOperator)
    (d source : ParticlesData 1) (destinationBoxes : List (Box 1)) (ratio : Fin 1 → Int)
    (pGeom : CartesianPatchGeometry 1) :
    refine_ t interpOrder Split d source destinationBoxes ratio pGeom
      = setTargetBuffer t d (targetBuffer t d
          ++ produced t interpOrder Split source ratio pGeom d.ghostBox d.box
              destinationBoxes) := by
  unfold refine_ produced
  exact foldl_append_target t _ _
    (refineBox_eq t interpOrder _ source ratio pGeom d.ghostBox d.box) _ d

theorem flatMap_ite_nil {α β : Type} (q : α → Bool) (f : α → List β) (l : List α) :
    l.flatMap (fun a => if q a then f a else []) = (l.filter q).flatMap f := by
  induction l with
  | nil => rfl
  | cons a l ih =>
    rw [List.flatMap_cons, ih]
    cases h : q a <;> simp [h]

theorem isInSplit_eq_decide (pGeom : CartesianPatchGeometry 1) (lo up : ℚ) (c : Particle 1) :
    isInSplit pGeom lo up c
      = decide (lo ≤ pGeom.xLower dirX + ((c.iCell dirX : ℚ) + c.delta dirX) * pGeom.dx dirX
          ∧ pGeom.xLower dirX + ((c.iCell dirX : ℚ) + c.delta dirX) * pGeom.dx dirX ≤ up) := by
  unfold isInSplit particlesPositionX
  have h : pGeom.xLower dirX + (c.iCell dirX : ℚ) * pGeom.dx dirX + c.delta dirX * pGeom.dx dirX
      = pGeom.xLower dirX + ((c.iCell dirX : ℚ) + c.delta dirX) * pGeom.dx dirX := by ring
  rw [h]

/-! ## C1, C3 – C5: what `refine_` appends, and where -/

/-- C1: for the interior variant in 1D, after `refine_` the destination `domainParticles` is
its prior contents followed by, for each destination box in container order, for the source
domain array and then the source ghost array, for each source particle in array order whose
cell lies in the local source box, the children of `split (shiftParticle particle)`, in the
output order of `split`, whose position `xLower + (iCell + delta) * dx` lies in the closed
interval between the lower and upper physical face of the destination box. -/
theorem refine_interior_domainParticles (interpOrder : Nat) (Split : SplitOperator)
    (destination source : ParticlesData 1) (destinationBoxes : List (Box 1))
    (ratio : Fin 1 → Int) (pGeom : CartesianPatchGeometry 1) :
    (refine_ ParticlesDataSplitType.interior interpOrder Split destination source
        destinationBoxes ratio pGeom).domainParticles
      = destination.domainParticles
        ++ destinationBoxes.flatMap (fun destinationBox =>
            [source.domainParticles, source.ghostParticles].flatMap (fun sourceArray =>
              (sourceArray.filter (fun particle =>
                  isInBox particle
                    (localSourceBox interpOrder ratio source.ghostBox destinationBox))).flatMap
                (fun particle =>
                  (Split (toUint32 (ratio dirX)) 2
                      (shiftParticle source.ghostBox destination.ghostBox ratio particle)).filter
                    (fun child =>
                      decide
                        (physicalLowerDestination pGeom destinationBox destination.box
                            ≤ pGeom.xLower dirX
                              + ((child.iCell dirX : ℚ) + child.delta dirX) * pGeom.dx dirX
                          ∧ pGeom.xLower dirX
                              + ((child.iCell dirX : ℚ) + child.delta dirX) * pGeom.dx dirX
                            ≤ physicalUpperDestination pGeom destinationBox
                                destination.box))))) := by
  rw [refine__eq]
  show destination.domainParticles ++ _ = _
  congr 1
  unfold produced producedForBox
  congr 1
  funext destinationBox
  congr 1
  funext sourceArray
  rw [← flatMap_ite_nil]
  congr 1
  funext particle
  unfold producedForParticle
  simp only [isCoarseBoundarySplitType, refinedParticleNbr]
  have hf : isInSplit pGeom (physicalLowerDestination pGeom destinationBox destination.box)
      (physicalUpperDestination pGeom destinationBox destination.box)
      = fun child => decide
          (physicalLowerDestination pGeom destinationBox destination.box
              ≤ pGeom.xLower dirX + ((child.iCell dirX : ℚ) + child.delta dirX) * pGeom.dx dirX
            ∧ pGeom.xLower dirX + ((child.iCell dirX : ℚ) + child.delta dirX) * pGeom.dx dirX
              ≤ physicalUpperDestination pGeom destinationBox destination.box) := by
    funext child
    exact isInSplit_eq_decide _ _ _ _
  rw [hf]
  simp

theorem mem_producedForParticle_boundary (t : ParticlesDataSplitType)
    (ht : isCoarseBoundarySplitType t = true) (interpOrder : Nat)
    (split : Particle 1 → List (Particle 1)) (sourceGhostBox : Box 1) (ratio : Fin 1 → Int)
    (pGeom : CartesianPatchGeometry 1) (dGhost dDomain destinationBox : Box 1)
    (p c : Particle 1) :
    c ∈ producedForParticle t interpOrder split sourceGhostBox ratio pGeom dGhost dDomain
        destinationBox p
      ↔ isInBox p (localSourceBox interpOrder ratio sourceGhostBox destinationBox) = true
        ∧ isCandidateForSplit interpOrder pGeom
            (physicalLowerDestination pGeom destinationBox dDomain)
            (physicalUpperDestination pGeom destinationBox dDomain)
            (shiftParticle sourceGhostBox dGhost ratio p) = true
        ∧ c ∈ split (shiftParticle sourceGhostBox dGhost ratio p)
        ∧ isInSplit pGeom (physicalLowerDestination pGeom destinationBox dDomain)
            (physicalUpperDestination pGeom destinationBox dDomain) c = true := by
  unfold producedForParticle
  by_cases h1 : isInBox p (localSourceBox interpOrder ratio sourceGhostBox destinationBox) = true
  · by_cases h3 : isCandidateForSplit interpOrder pGeom
        (physicalLowerDestination pGeom destinationBox dDomain)
        (physicalUpperDestination pGeom destinationBox dDomain)
        (shiftParticle sourceGhostBox dGhost ratio p) = true
    · simp [h1, h3, ht, List.mem_filter]
    · simp [h1, h3, ht]
  · simp [h1]

/-- What the boundary variants append, in terms of the three tests of the code: `refine_`
extends the variant's buffer by a list `appended`, and a child is in `appended` if and only
if, for some destination box and some particle of the source domain or ghost array, the
particle passes `isInBox` for the local source box, the shifted unsplit particle passes
`isCandidateForSplit` for that box, and the child is a child of the shifted particle that
passes `isInSplit` for that box. When no shifted particle of the local source box is a
candidate, nothing is appended. Passing `isInSplit` is not the same as
lying inside the box, since the test compares a position local to the ghost box with faces
local to the domain box. -/
theorem refine_boundary_appended_iff (splitType : ParticlesDataSplitType)
    (hBoundary : isCoarseBoundarySplitType splitType = true) (interpOrder : Nat)
    (Split : SplitOperator) (destination source : ParticlesData 1)
    (destinationBoxes : List (Box 1)) (ratio : Fin 1 → Int)
    (pGeom : CartesianPatchGeometry 1) :
    ∃ appended : List (Particle 1),
      targetBuffer splitType
          (refine_ splitType interpOrder Split destination source destinationBoxes ratio pGeom)
        = targetBuffer splitType destination ++ appended
      ∧ (∀ child : Particle 1, child ∈ appended ↔
          ∃ destinationBox ∈ destinationBoxes,
            ∃ particle ∈ source.domainParticles ++ source.ghostParticles,
              isInBox particle
                  (localSourceBox interpOrder ratio source.ghostBox destinationBox) = true
              ∧ isCandidateForSplit interpOrder pGeom
                  (physicalLowerDestination pGeom destinationBox destination.box)
                  (physicalUpperDestination pGeom destinationBox destination.box)
                  (shiftParticle source.ghostBox destination.ghostBox ratio particle) = true
              ∧ child ∈ Split (toUint32 (ratio dirX)) 2
                  (shiftParticle source.ghostBox destination.ghostBox ratio particle)
              ∧ isInSplit pGeom
                  (physicalLowerDestination pGeom destinationBox destination.box)
                  (physicalUpperDestination pGeom destinationBox destination.box) child = true)
      ∧ ((∀ destinationBox ∈ destinationBoxes,
            ∀ particle ∈ source.domainParticles ++ source.ghostParticles,
              isInBox particle
                  (localSourceBox interpOrder ratio source.ghostBox destinationBox) = true →
              isCandidateForSplit interpOrder pGeom
                  (physicalLowerDestination pGeom destinationBox destination.box)
                  (physicalUpperDestination pGeom destinationBox destination.box)
                  (shiftParticle source.ghostBox destination.ghostBox ratio particle) = false)
          → appended = []) := by
  have hmem : ∀ child : Particle 1,
      child ∈ produced splitType interpOrder Split source ratio pGeom destination.ghostBox
          destination.box destinationBoxes ↔
        ∃ destinationBox ∈ destinationBoxes,
          ∃ particle ∈ source.domainParticles ++ source.ghostParticles,
            isInBox particle
                (localSourceBox interpOrder ratio source.ghostBox destinationBox) = true
            ∧ isCandidateForSplit interpOrder pGeom
                (physicalLowerDestination pGeom destinationBox destination.box)
                (physicalUpperDestination pGeom destinationBox destination.box)
                (shiftParticle source.ghostBox destination.ghostBox ratio particle) = true
            ∧ child ∈ Split (toUint32 (ratio dirX)) 2
                (shiftParticle source.ghostBox destination.ghostBox ratio particle)
            ∧ isInSplit pGeom
                (physicalLowerDestination pGeom destinationBox destination.box)
                (physicalUpperDestination pGeom destinationBox destination.box) child = true := by
    intro child
    unfold produced producedForBox
    simp only [List.mem_flatMap, List.mem_cons, List.mem_singleton, List.mem_append,
      List.not_mem_nil, or_false, mem_producedForParticle_boundary splitType hBoundary,
      refinedParticleNbr]
    constructor
    · rintro ⟨b, hb, arr, harr, p, hp, h⟩
      refine ⟨b, hb, p, ?_, h⟩
      rcases harr with rfl | rfl
      · exact Or.inl hp
      · exact Or.inr hp
    · rintro ⟨b, hb, p, hp, h⟩
      rcases hp with hp | hp
      · exact ⟨b, hb, _, Or.inl rfl, p, hp, h⟩
      · exact ⟨b, hb, _, Or.inr rfl, p, hp, h⟩
  refine ⟨produced splitType interpOrder Split source ratio pGeom destination.ghostBox
    destination.box destinationBoxes, ?_, hmem, ?_⟩
  · rw [refine__eq, targetBuffer_setTargetBuffer]
  · intro hnone
    apply List.eq_nil_iff_forall_not_mem.mpr
    intro child hchild
    obtain ⟨b, hb, p, hp, hin, hcand, -, -⟩ := (hmem child).mp hchild
    rw [hnone b hb p hp hin] at hcand
    exact Bool.false_ne_true hcand

/-- C3: `refine_` changes only the destination array of its own variant: `interior` leaves
the three coarse-to-fine arrays as they were, `coarseBoundary` leaves `domainParticles` and
the `Old` and `New` arrays as they were, `coarseBoundary1` leaves `domainParticles`,
`coarseToFineParticles` and the `New` array as they were, `coarseBoundary2` leaves
`domainParticles`, `coarseToFineParticles` and the `Old` array as they were; every variant
leaves the destination `ghostParticles` as they were. -/
theorem refine_frame (interpOrder : Nat) (Split : SplitOperator)
    (destination source : ParticlesData 1) (destinationBoxes : List (Box 1))
    (ratio : Fin 1 → Int) (pGeom : CartesianPatchGeometry 1) :
    ((refine_ ParticlesDataSplitType.interior interpOrder Split destination source
          destinationBoxes ratio pGeom).coarseToFineParticles = destination.coarseToFineParticles
      ∧ (refine_ ParticlesDataSplitType.interior interpOrder Split destination source
          destinationBoxes ratio pGeom).coarseToFineParticlesOld
          = destination.coarseToFineParticlesOld
      ∧ (refine_ ParticlesDataSplitType.interior interpOrder Split destination source
          destinationBoxes ratio pGeom).coarseToFineParticlesNew
          = destination.coarseToFineParticlesNew
      ∧ (refine_ ParticlesDataSplitType.interior interpOrder Split destination source
          destinationBoxes ratio pGeom).ghostParticles = destination.ghostParticles)
    ∧ ((refine_ ParticlesDataSplitType.coarseBoundary interpOrder Split destination source
          destinationBoxes ratio pGeom).domainParticles = destination.domainParticles
      ∧ (refine_ ParticlesDataSplitType.coarseBoundary interpOrder Split destination source
          destinationBoxes ratio pGeom).coarseToFineParticlesOld
          = destination.coarseToFineParticlesOld
      ∧ (refine_ ParticlesDataSplitType.coarseBoundary interpOrder Split destination source
          destinationBoxes ratio pGeom).coarseToFineParticlesNew
          = destination.coarseToFineParticlesNew
      ∧ (refine_ ParticlesDataSplitType.coarseBoundary interpOrder Split destination source
          destinationBoxes ratio pGeom).ghostParticles = destination.ghostParticles)
    ∧ ((refine_ ParticlesDataSplitType.coarseBoundary1 interpOrder Split destination source
          destinationBoxes ratio pGeom).domainParticles = destination.domainParticles
      ∧ (refine_ ParticlesDataSplitType.coarseBoundary1 interpOrder Split destination source
          destinationBoxes ratio pGeom).coarseToFineParticles
          = destination.coarseToFineParticles
      ∧ (refine_ ParticlesDataSplitType.coarseBoundary1 interpOrder Split destination source
          destinationBoxes ratio pGeom).coarseToFineParticlesNew
          = destination.coarseToFineParticlesNew
      ∧ (refine_ ParticlesDataSplitType.coarseBoundary1 interpOrder Split destination source
          destinationBoxes ratio pGeom).ghostParticles = destination.ghostParticles)
    ∧ ((refine_ ParticlesDataSplitType.coarseBoundary2 interpOrder Split destination source
          destinationBoxes ratio pGeom).domainParticles = destination.domainParticles
      ∧ (refine_ ParticlesDataSplitType.coarseBoundary2 interpOrder Split destination source
          destinationBoxes ratio pGeom).coarseToFineParticles
          = destination.coarseToFineParticles
      ∧ (refine_ ParticlesDataSplitType.coarseBoundary2 interpOrder Split destination source
          destinationBoxes ratio pGeom).coarseToFineParticlesOld
          = destination.coarseToFineParticlesOld
      ∧ (refine_ ParticlesDataSplitType.coarseBoundary2 interpOrder Split destination source
          destinationBoxes ratio pGeom).ghostParticles = destination.ghostParticles) := by
  simp only [refine__eq, setTargetBuffer, and_self]

/-- C4: `refine_` never overwrites: for every variant and every input the prior contents of
the variant's destination array are a prefix of its contents after the call, and the contents
reached after the destination boxes `earlier` are a prefix of the contents reached after the
boxes `earlier ++ later`, so what an earlier box produced stays, in order. -/
theorem refine_never_overwrites (splitType : ParticlesDataSplitType) (interpOrder : Nat)
    (Split : SplitOperator) (destination source : ParticlesData 1)
    (earlier later : List (Box 1)) (ratio : Fin 1 → Int) (pGeom : CartesianPatchGeometry 1) :
    targetBuffer splitType destination
        <+: targetBuffer splitType
          (refine_ splitType interpOrder Split destination source earlier ratio pGeom)
    ∧ targetBuffer splitType
          (refine_ splitType interpOrder Split destination source earlier ratio pGeom)
        <+: targetBuffer splitType
          (refine_ splitType interpOrder Split destination source (earlier ++ later) ratio
            pGeom) := by
  simp only [refine__eq, targetBuffer_setTargetBuffer]
  constructor
  · exact List.prefix_append _ _
  · unfold produced
    rw [List.flatMap_append, ← List.append_assoc]
    exact List.prefix_append _ _

/-! ## Evaluation at concrete inputs -/

theorem floor_of_mem_Ico (x : ℚ) (h0 : 0 ≤ x) (h1 : x < 1) : ⌊x⌋ = 0 := by
  rw [Int.floor_eq_iff]
  constructor
  · simpa using h0
  · simpa using h1

/-- The children that the example `refine_` call contributes for the box `[10, 19]`: the
coarse particle (global coarse cell 4, `delta = 3/4`) is shifted to the fine cell of local
index 0 (global index 9) at `delta = 1/2`, a candidate at order 1, and both
children, at `delta = 1/4` and `delta = 3/4` of that cell, pass `isInSplit`. -/
theorem produced_example (splitType : ParticlesDataSplitType) :
    produced splitType 1 (splitModel quarterOffset) coarseData ratioTwo unitGeometry
        (mkBox 9 20) (mkBox 10 19) [mkBox 10 19]
      = [mkParticle (1 / 2) 0 (1 / 4), mkParticle (1 / 2) 0 (3 / 4)] := by
  have hf1 : Int.fract (1 / 4 : ℚ) = 1 / 4 := by
    rw [Int.fract_eq_iff]; refine ⟨by norm_num, by norm_num, 0, by norm_num⟩
  have hf2 : Int.fract (3 / 4 : ℚ) = 3 / 4 := by
    rw [Int.fract_eq_iff]; refine ⟨by norm_num, by norm_num, 0, by norm_num⟩
  have habs : |(1 / 2 : ℚ)| = 1 / 2 := abs_of_pos (by norm_num)
  simp [produced, producedForBox, producedForParticle, coarseData,
    isInBox, localSourceBox, Box.coarsen, Box.grow, Box.intersect, AMRToLocalBox, mkBox,
    mkParticle, ratioTwo, ghostWidthForParticles, shiftParticle,
    shiftDeltaAndiCell, localToAMR, refinedPosition, AMRToLocal, truncToInt, splitModel,
    refinedParticleNbr, splitChild, quarterOffset, isInSplit, particlesPositionX,
    physicalLowerDestination, physicalUpperDestination, destinationBoxLocalToDomain,
    unitGeometry, dirX, isCandidateForSplit, maxDistanceX, List.range_succ, List.filter_cons]
  norm_num [hf1, hf2, habs]

/-- C5, counterexample: the `coarseBoundary` variant of order 1 called on `fineData`, whose
`coarseToFineParticles` holds one particle of weight 7 before the call. After the call that
particle is still in the buffer, ahead of the two children the call produced. -/
theorem refine_coarseBoundary_keeps_prior_contents :
    fineData.coarseToFineParticles = [mkParticle 7 3 0]
    ∧ (refine_ ParticlesDataSplitType.coarseBoundary 1 (splitModel quarterOffset) fineData
          coarseData [mkBox 10 19] ratioTwo unitGeometry).coarseToFineParticles
        = [mkParticle 7 3 0, mkParticle (1 / 2) 0 (1 / 4), mkParticle (1 / 2) 0 (3 / 4)] := by
  refine ⟨rfl, ?_⟩
  rw [refine__eq]
  show fineData.coarseToFineParticles ++ produced _ _ _ _ _ _ (mkBox 9 20) (mkBox 10 19) _ = _
  rw [produced_example]
  rfl

/-- C5, amended: `refine_` does not clear its buffer. After a boundary-variant call the
variant's buffer is its prior contents followed by exactly what the same call leaves in a
buffer that was empty before the call. -/
theorem refine_boundary_buffer_eq_prior_append (interpOrder : Nat) (Split : SplitOperator)
    (destination source : ParticlesData 1) (destinationBoxes : List (Box 1))
    (ratio : Fin 1 → Int) (pGeom : CartesianPatchGeometry 1) :
    (refine_ ParticlesDataSplitType.coarseBoundary interpOrder Split destination source
          destinationBoxes ratio pGeom).coarseToFineParticles
        = destination.coarseToFineParticles
          ++ (refine_ ParticlesDataSplitType.coarseBoundary interpOrder Split
                { destination with coarseToFineParticles := [] } source destinationBoxes ratio
                pGeom).coarseToFineParticles
    ∧ (refine_ ParticlesDataSplitType.coarseBoundary1 interpOrder Split destination source
          destinationBoxes ratio pGeom).coarseToFineParticlesOld
        = destination.coarseToFineParticlesOld
          ++ (refine_ ParticlesDataSplitType.coarseBoundary1 interpOrder Split
                { destination with coarseToFineParticlesOld := [] } source destinationBoxes
                ratio pGeom).coarseToFineParticlesOld
    ∧ (refine_ ParticlesDataSplitType.coarseBoundary2 interpOrder Split destination source
          destinationBoxes ratio pGeom).coarseToFineParticlesNew
        = destination.coarseToFineParticlesNew
          ++ (refine_ ParticlesDataSplitType.coarseBoundary2 interpOrder Split
                { destination with coarseToFineParticlesNew := [] } source destinationBoxes
                ratio pGeom).coarseToFineParticlesNew := by
  simp only [refine__eq, setTargetBuffer, targetBuffer, List.nil_append, and_self]

/-! ## C6: `shiftParticle` and the range of `delta` -/

/-- C6, the code at the failing input: ratio 2, source ghost box `[3, 12]`, destination
ghost box `[9, 20]`, a source particle in the coarse cell of global index 4 (local index 1)
with `delta = 1/4`, which lies in the local source box of the destination box `[10, 19]`.
The refined cell has global index 8, local index `-1`; `normalizedPosition = -1/2` is
truncated toward zero to cell 0, and the shifted particle gets `delta = -1/2`. -/
theorem shiftParticle_delta_negative :
    isInBox (mkParticle 1 1 (1 / 4)) (localSourceBox 1 ratioTwo (mkBox 3 12) (mkBox 10 19))
        = true
    ∧ (0 : ℚ) ≤ (mkParticle 1 1 (1 / 4)).delta dirX
    ∧ (mkParticle 1 1 (1 / 4)).delta dirX < 1
    ∧ AMRToLocal (refinedPosition (localToAMR (mkParticle 1 1 (1 / 4)).iCell (mkBox 3 12))
          ratioTwo) (mkBox 9 20) dirX = -1
    ∧ (shiftParticle (mkBox 3 12) (mkBox 9 20) ratioTwo (mkParticle 1 1 (1 / 4))).iCell dirX = 0
    ∧ (shiftParticle (mkBox 3 12) (mkBox 9 20) ratioTwo (mkParticle 1 1 (1 / 4))).delta dirX
        = -1 / 2
    ∧ (shiftParticle (mkBox 3 12) (mkBox 9 20) ratioTwo (mkParticle 1 1 (1 / 4))).delta dirX
        < 0 := by
  have hc : ⌈(-1 / 2 : ℚ)⌉ = 0 := by
    rw [Int.ceil_eq_iff]; norm_num
  have hc2 : ⌈(-(1 / 2) : ℚ)⌉ = 0 := by
    rw [Int.ceil_eq_iff]; norm_num
  simp [isInBox, localSourceBox, Box.coarsen, Box.grow, Box.intersect, AMRToLocalBox, mkBox,
    mkParticle, ratioTwo, ghostWidthForParticles, shiftParticle, shiftDeltaAndiCell,
    localToAMR, refinedPosition, AMRToLocal, truncToInt, dirX]
  norm_num [hc, hc2]

/-! ## C7: where the kept children lie -/

/-- C7, the code at the failing input: interior variant of order 1 (ghost width 1), fine
patch with domain box `[10, 19]` and ghost box `[9, 20]`, destination box `[10, 19]`, unit
mesh size. The assumption of the claim holds (the ghost box is the domain box grown by the
ghost width), both appended children have `0 ≤ delta < 1`, and both have the global fine cell
index 9, below the lower index 10 of the destination box and not on its upper face. Whatever
the split operator, a child in the fine cell of local index 0 with `delta = 1/2` passes
`isInSplit` for this box. -/
theorem refine_interior_keeps_child_outside_box :
    fineData.ghostBox = fineData.box.grow (fun _ => (ghostWidthForParticles 1 : Int))
    ∧ (refine_ ParticlesDataSplitType.interior 1 (splitModel quarterOffset) fineData coarseData
          [mkBox 10 19] ratioTwo unitGeometry).domainParticles
        = [mkParticle (1 / 2) 0 (1 / 4), mkParticle (1 / 2) 0 (3 / 4)]
    ∧ localToAMR (mkParticle (1 / 2) 0 (1 / 4)).iCell fineData.ghostBox dirX = 9
    ∧ localToAMR (mkParticle (1 / 2) 0 (3 / 4)).iCell fineData.ghostBox dirX = 9
    ∧ (mkBox 10 19).lower dirX = 10
    ∧ particlesPositionX unitGeometry (mkParticle (1 / 2) 0 (3 / 4))
        < physicalUpperDestination unitGeometry (mkBox 10 19) fineData.box
    ∧ isInSplit unitGeometry (physicalLowerDestination unitGeometry (mkBox 10 19) fineData.box)
        (physicalUpperDestination unitGeometry (mkBox 10 19) fineData.box)
        (mkParticle 1 0 (1 / 2)) = true := by
  refine ⟨?_, ?_, ?_, ?_, rfl, ?_, ?_⟩
  · simp [fineData, Box.grow, mkBox, ghostWidthForParticles]
  · rw [refine__eq]
    show fineData.domainParticles ++ produced _ _ _ _ _ _ (mkBox 9 20) (mkBox 10 19) _ = _
    rw [produced_example]
    rfl
  · simp [localToAMR, mkParticle, fineData, mkBox]
  · simp [localToAMR, mkParticle, fineData, mkBox]
  · simp [particlesPositionX, physicalUpperDestination, destinationBoxLocalToDomain,
      AMRToLocalBox, unitGeometry, mkParticle, mkBox, fineData, dirX]
    norm_num
  · simp [isInSplit, particlesPositionX, physicalLowerDestination, physicalUpperDestination,
      destinationBoxLocalToDomain, AMRToLocalBox, unitGeometry, mkParticle, mkBox, fineData,
      dirX]
    norm_num

/-! ## C2: what the boundary variants keep -/

/-- C2, the code at the failing input: the `coarseBoundary` variant of order 1 (ghost width
1), ratio 2, unit mesh size, fine patch with domain box `[10, 19]` and ghost box `[9, 20]`,
destination box `[10, 19]`, one source particle in the coarse cell of global index 4 at
`delta = 3/4`. The source particle passes `isInBox` for the local source box, the shifted
particle passes `isCandidateForSplit` for the box, and both of its children are appended to
`coarseToFineParticles`; yet both children have the global fine cell index 9, below the lower
index 10 of the destination box: the children appended are not inside the sub-box. -/
theorem refine_boundary_appends_child_outside_box :
    isCoarseBoundarySplitType ParticlesDataSplitType.coarseBoundary = true
    ∧ fineData.ghostBox = fineData.box.grow (fun _ => (ghostWidthForParticles 1 : Int))
    ∧ coarseData.domainParticles ++ coarseData.ghostParticles = [mkParticle 1 1 (3 / 4)]
    ∧ isInBox (mkParticle 1 1 (3 / 4))
        (localSourceBox 1 ratioTwo coarseData.ghostBox (mkBox 10 19)) = true
    ∧ isCandidateForSplit 1 unitGeometry
        (physicalLowerDestination unitGeometry (mkBox 10 19) fineData.box)
        (physicalUpperDestination unitGeometry (mkBox 10 19) fineData.box)
        (shiftParticle coarseData.ghostBox fineData.ghostBox ratioTwo
          (mkParticle 1 1 (3 / 4))) = true
    ∧ (refine_ ParticlesDataSplitType.coarseBoundary 1 (splitModel quarterOffset) fineData
          coarseData [mkBox 10 19] ratioTwo unitGeometry).coarseToFineParticles
        = fineData.coarseToFineParticles
          ++ [mkParticle (1 / 2) 0 (1 / 4), mkParticle (1 / 2) 0 (3 / 4)]
    ∧ localToAMR (mkParticle (1 / 2) 0 (1 / 4)).iCell fineData.ghostBox dirX = 9
    ∧ localToAMR (mkParticle (1 / 2) 0 (3 / 4)).iCell fineData.ghostBox dirX = 9
    ∧ (mkBox 10 19).lower dirX = 10
    ∧ (mkBox 10 19).upper dirX = 19 := by
  have habs : |(1 / 2 : ℚ)| = 1 / 2 := abs_of_pos (by norm_num)
  refine ⟨by decide, ?_, rfl, ?_, ?_, ?_, ?_, ?_, rfl, rfl⟩
  · simp [fineData, Box.grow, mkBox, ghostWidthForParticles]
  · simp [isInBox, localSourceBox, Box.coarsen, Box.grow, Box.intersect, AMRToLocalBox, mkBox,
      mkParticle, ratioTwo, ghostWidthForParticles, coarseData]
  · simp [coarseData, fineData, mkBox, mkParticle, ratioTwo, shiftParticle,
      shiftDeltaAndiCell, localToAMR, refinedPosition, AMRToLocal, truncToInt,
      isCandidateForSplit, maxDistanceX, particlesPositionX, physicalLowerDestination,
      physicalUpperDestination, destinationBoxLocalToDomain, AMRToLocalBox, unitGeometry, dirX]
    norm_num [habs]
  · rw [refine__eq]
    show fineData.coarseToFineParticles
      ++ produced _ _ _ _ _ _ (mkBox 9 20) (mkBox 10 19) _ = _
    rw [produced_example]
  · simp [localToAMR, mkParticle, fineData, mkBox]
  · simp [localToAMR, mkParticle, fineData, mkBox]

/-! ## C9: the reach of `isCandidateForSplit` at order 3 -/

/-- C9, the code at the failing input: interpolation order 3, unit mesh size, destination
box `[10, 19]` of a patch with domain box `[10, 19]` (lower face at 0, upper face at 10), and
a shifted particle at position `1.25` (cell 1, `delta = 1/4`). It is `1.25 * dx` from the
lower face, within `1.5 * dx`, and farther from the upper face, but `maxDistanceX` is
`(3 / 2) * dx` with the integer quotient `3 / 2 = 1`, so the particle is not a candidate. -/
theorem isCandidateForSplit_order_three_reach :
    maxDistanceX 3 unitGeometry = 1 * unitGeometry.dx dirX
    ∧ |particlesPositionX unitGeometry (mkParticle 1 1 (1 / 4))
          - physicalLowerDestination unitGeometry (mkBox 10 19) (mkBox 10 19)|
        = (5 / 4) * unitGeometry.dx dirX
    ∧ |particlesPositionX unitGeometry (mkParticle 1 1 (1 / 4))
          - physicalUpperDestination unitGeometry (mkBox 10 19) (mkBox 10 19)|
        = (35 / 4) * unitGeometry.dx dirX
    ∧ isCandidateForSplit 3 unitGeometry
        (physicalLowerDestination unitGeometry (mkBox 10 19) (mkBox 10 19))
        (physicalUpperDestination unitGeometry (mkBox 10 19) (mkBox 10 19))
        (mkParticle 1 1 (1 / 4)) = false := by
  have h1 : |(5 / 4 : ℚ)| = 5 / 4 := abs_of_pos (by norm_num)
  have h2 : |(5 / 4 - 10 : ℚ)| = 35 / 4 := by
    rw [abs_of_neg (by norm_num)]; norm_num
  have h3 : ((3 : Int) / (2 : Int) : Int) = 1 := by decide
  have h4 : |(35 / 4 : ℚ)| = 35 / 4 := abs_of_pos (by norm_num)
  simp [isCandidateForSplit, maxDistanceX, particlesPositionX, physicalLowerDestination,
    physicalUpperDestination, destinationBoxLocalToDomain, AMRToLocalBox, unitGeometry,
    mkParticle, mkBox, dirX, h3]
  norm_num [h1, h2, h4]

/-! ## C10: the ratio-2 scenario -/

theorem truncToInt_intCast (n : Int) : truncToInt (n : ℚ) = n := by
  unfold truncToInt
  split <;> simp

/-- C10: in 1D with ratio 2, a coarse particle with global cell index 10 and `delta = 1/2` is
shifted to the fine particle with global fine cell 21 and `delta = 0` (fine position 21.0),
whatever the two ghost boxes; splitting it in 2 children (split operator modelled from the
spec, its pair less than one fine cell away from the parent) gives two fine particles with
global cells in `{20, 21}`, with `delta` in `[0, 1)`, with weights that sum to the parent's
weight, and with positions symmetric around fine position 21.0. -/
theorem shift_then_split_ratio_two (sourceGhostBox destinationGhostBox : Box 1)
    (particle : Particle 1) (offset : Nat → ℚ)
    (hCell : localToAMR particle.iCell sourceGhostBox dirX = 10)
    (hDelta : particle.delta dirX = 1 / 2)
    (hOffsetLower : 0 ≤ offset 0) (hOffsetUpper : offset 0 < 1) :
    localToAMR (shiftParticle sourceGhostBox destinationGhostBox ratioTwo particle).iCell
        destinationGhostBox dirX = 21
    ∧ (shiftParticle sourceGhostBox destinationGhostBox ratioTwo particle).delta dirX = 0
    ∧ ∃ child1 child2 : Particle 1,
        splitModel offset (toUint32 (ratioTwo dirX)) refinedParticleNbr
            (shiftParticle sourceGhostBox destinationGhostBox ratioTwo particle)
          = [child1, child2]
        ∧ (localToAMR child1.iCell destinationGhostBox dirX = 20
            ∨ localToAMR child1.iCell destinationGhostBox dirX = 21)
        ∧ (localToAMR child2.iCell destinationGhostBox dirX = 20
            ∨ localToAMR child2.iCell destinationGhostBox dirX = 21)
        ∧ (0 ≤ child1.delta dirX ∧ child1.delta dirX < 1)
        ∧ (0 ≤ child2.delta dirX ∧ child2.delta dirX < 1)
        ∧ child1.weight + child2.weight = particle.weight
        ∧ (21 : ℚ) - ((localToAMR child1.iCell destinationGhostBox dirX : ℚ)
              + child1.delta dirX)
            = ((localToAMR child2.iCell destinationGhostBox dirX : ℚ) + child2.delta dirX)
              - 21 := by
  have hcell : particle.iCell dirX + sourceGhostBox.lower dirX = 10 := hCell
  have hnorm : (((particle.iCell dirX + sourceGhostBox.lower dirX) * 2
        - destinationGhostBox.lower dirX : Int) : ℚ) + ((2 : Int) : ℚ) * particle.delta dirX
      = ((21 - destinationGhostBox.lower dirX : Int) : ℚ) := by
    rw [hcell, hDelta]; push_cast; ring
  have hsI : (shiftParticle sourceGhostBox destinationGhostBox ratioTwo particle).iCell dirX
      = 21 - destinationGhostBox.lower dirX := by
    simp only [shiftParticle, shiftDeltaAndiCell, localToAMR, refinedPosition, AMRToLocal,
      ratioTwo]
    rw [hnorm, truncToInt_intCast]
  have hsD : (shiftParticle sourceGhostBox destinationGhostBox ratioTwo particle).delta dirX
      = 0 := by
    simp only [shiftParticle, shiftDeltaAndiCell, localToAMR, refinedPosition, AMRToLocal,
      ratioTwo]
    rw [hnorm, truncToInt_intCast, sub_self]
  have hsW : (shiftParticle sourceGhostBox destinationGhostBox ratioTwo particle).weight
      = particle.weight := rfl
  have hfloorUp : ⌊offset 0⌋ = 0 := floor_of_mem_Ico _ hOffsetLower hOffsetUpper
  have hfloorLo : ⌊-(offset 0)⌋ = -1 ∨ ⌊-(offset 0)⌋ = 0 := by
    rcases eq_or_lt_of_le hOffsetLower with h | h
    · right; rw [← h]; simp
    · left
      rw [Int.floor_eq_iff]
      constructor
      · push_cast; linarith
      · push_cast; linarith
  refine ⟨?_, hsD, ?_⟩
  · show (shiftParticle sourceGhostBox destinationGhostBox ratioTwo particle).iCell dirX
        + destinationGhostBox.lower dirX = 21
    rw [hsI]; ring
  · refine ⟨splitChild 2 (-(offset 0))
        (shiftParticle sourceGhostBox destinationGhostBox ratioTwo particle),
      splitChild 2 (offset 0)
        (shiftParticle sourceGhostBox destinationGhostBox ratioTwo particle),
      ?_, ?_, ?_, ?_, ?_, ?_, ?_⟩
    · rfl
    · simp only [splitChild, localToAMR, hsI, hsD, zero_add]
      rcases hfloorLo with h | h <;> rw [h]
      · left; ring
      · right; ring
    · simp only [splitChild, localToAMR, hsI, hsD, zero_add, hfloorUp]
      right; ring
    · simp only [splitChild, hsD, zero_add]
      exact ⟨Int.fract_nonneg _, Int.fract_lt_one _⟩
    · simp only [splitChild, hsD, zero_add]
      exact ⟨Int.fract_nonneg _, Int.fract_lt_one _⟩
    · simp only [splitChild, hsW]
      push_cast; ring
    · simp only [splitChild, localToAMR, hsI, hsD, zero_add]
      push_cast; ring

/-- Witness for C10: source ghost box `[3, 12]`, destination ghost box `[9, 20]`, the coarse
particle in local cell 7 (global cell 10) with `delta = 1/2`, children a quarter of a fine
cell away from the parent. -/
theorem shift_then_split_ratio_two_witness :
    (localToAMR (mkParticle 1 7 (1 / 2)).iCell (mkBox 3 12) dirX = 10
      ∧ (mkParticle 1 7 (1 / 2)).delta dirX = 1 / 2
      ∧ 0 ≤ quarterOffset 0 ∧ quarterOffset 0 < 1)
    ∧ localToAMR (shiftParticle (mkBox 3 12) (mkBox 9 20) ratioTwo
          (mkParticle 1 7 (1 / 2))).iCell (mkBox 9 20) dirX = 21
    ∧ (shiftParticle (mkBox 3 12) (mkBox 9 20) ratioTwo (mkParticle 1 7 (1 / 2))).delta dirX = 0
    ∧ ∃ child1 child2 : Particle 1,
        splitModel quarterOffset (toUint32 (ratioTwo dirX)) refinedParticleNbr
            (shiftParticle (mkBox 3 12) (mkBox 9 20) ratioTwo (mkParticle 1 7 (1 / 2)))
          = [child1, child2]
        ∧ (localToAMR child1.iCell (mkBox 9 20) dirX = 20
            ∨ localToAMR child1.iCell (mkBox 9 20) dirX = 21)
        ∧ (localToAMR child2.iCell (mkBox 9 20) dirX = 20
            ∨ localToAMR child2.iCell (mkBox 9 20) dirX = 21)
        ∧ (0 ≤ child1.delta dirX ∧ child1.delta dirX < 1)
        ∧ (0 ≤ child2.delta dirX ∧ child2.delta dirX < 1)
        ∧ child1.weight + child2.weight = (mkParticle 1 7 (1 / 2)).weight
        ∧ (21 : ℚ) - ((localToAMR child1.iCell (mkBox 9 20) dirX : ℚ) + child1.delta dirX)
            = ((localToAMR child2.iCell (mkBox 9 20) dirX : ℚ) + child2.delta dirX) - 21 :=
  ⟨⟨by decide, rfl, by norm_num [quarterOffset], by norm_num [quarterOffset]⟩,
    shift_then_split_ratio_two (mkBox 3 12) (mkBox 9 20) (mkParticle 1 7 (1 / 2)) quarterOffset
      (by decide) rfl (by norm_num [quarterOffset]) (by norm_num [quarterOffset])⟩

/-! ## C11: weights of the children -/

/-- C11: charge conservation. For every particle and every refinement ratio `≥ 1`, the split
operator that `refine_` builds (constructor arguments `ratio(dirX)` and 2; operator modelled
from the spec) returns 2 children whose weights sum to the weight of its input, and, applied
to the shifted particle as in `refine_`, to the weight of the source particle. -/
theorem split_conserves_weight (offset : Nat → ℚ) (ratio : Fin 1 → Int)
    (sourceGhostBox destinationGhostBox : Box 1) (particle : Particle 1)
    (_hRatio : 1 ≤ ratio dirX) :
    (splitModel offset (toUint32 (ratio dirX)) refinedParticleNbr particle).length = 2
    ∧ ((splitModel offset (toUint32 (ratio dirX)) refinedParticleNbr particle).map
          (fun child => child.weight)).sum = particle.weight
    ∧ ((splitModel offset (toUint32 (ratio dirX)) refinedParticleNbr
          (shiftParticle sourceGhostBox destinationGhostBox ratio particle)).map
          (fun child => child.weight)).sum = particle.weight := by
  have hsplit : ∀ p : Particle 1,
      splitModel offset (toUint32 (ratio dirX)) refinedParticleNbr p
        = [splitChild 2 (-(offset 0)) p, splitChild 2 (offset 0) p] := fun _ => rfl
  refine ⟨by rw [hsplit]; rfl, ?_, ?_⟩
  · rw [hsplit]
    simp only [List.map_cons, List.map_nil, List.sum_cons, List.sum_nil, splitChild]
    push_cast; ring
  · rw [hsplit]
    simp only [List.map_cons, List.map_nil, List.sum_cons, List.sum_nil, splitChild,
      shiftParticle]
    push_cast; ring

/-- Witness for C11: ratio 2, the coarse particle of `coarseData`, children a quarter of a
cell away from the parent. -/
theorem split_conserves_weight_witness :
    1 ≤ ratioTwo dirX
    ∧ (splitModel quarterOffset (toUint32 (ratioTwo dirX)) refinedParticleNbr
          (mkParticle 1 1 (3 / 4))).length = 2
    ∧ ((splitModel quarterOffset (toUint32 (ratioTwo dirX)) refinedParticleNbr
          (mkParticle 1 1 (3 / 4))).map (fun child => child.weight)).sum
        = (mkParticle 1 1 (3 / 4)).weight
    ∧ ((splitModel quarterOffset (toUint32 (ratioTwo dirX)) refinedParticleNbr
          (shiftParticle (mkBox 3 12) (mkBox 9 20) ratioTwo (mkParticle 1 1 (3 / 4)))).map
          (fun child => child.weight)).sum = (mkParticle 1 1 (3 / 4)).weight :=
  ⟨by decide,
    split_conserves_weight quarterOffset ratioTwo (mkBox 3 12) (mkBox 9 20)
      (mkParticle 1 1 (3 / 4)) (by decide)⟩

/-! ## C12: coverage of `isInBox` -/

/-- C12: for every destination box and every ratio `≥ 1` on each axis, a source particle
whose global coarse cell `c` lies in the source ghost box and whose refined footprint (fine
cells `ratio * c` through `ratio * c + ratio - 1` on each axis) meets the destination box
passes `isInBox` for the local source box of that destination box. -/
theorem isInBox_of_footprint_overlap {dim : Nat} (interpOrder : Nat) (ratio : Fin dim → Int)
    (sourceGhostBox destinationBox : Box dim) (particle : Particle dim)
    (hRatio : ∀ d, 1 ≤ ratio d)
    (hSource : ∀ d, sourceGhostBox.lower d ≤ localToAMR particle.iCell sourceGhostBox d
      ∧ localToAMR particle.iCell sourceGhostBox d ≤ sourceGhostBox.upper d)
    (hOverlap : ∀ d,
      ratio d * localToAMR particle.iCell sourceGhostBox d ≤ destinationBox.upper d
      ∧ destinationBox.lower d
          ≤ ratio d * localToAMR particle.iCell sourceGhostBox d + ratio d - 1) :
    isInBox particle (localSourceBox interpOrder ratio sourceGhostBox destinationBox)
      = true := by
  unfold isInBox
  rw [decide_eq_true_eq]
  intro d
  have hr : 0 < ratio d := by have := hRatio d; omega
  have hg : (0 : Int) ≤ (ghostWidthForParticles interpOrder : Int) := Int.ofNat_nonneg _
  obtain ⟨hs1, hs2⟩ := hSource d
  obtain ⟨ho1, ho2⟩ := hOverlap d
  simp only [localToAMR] at hs1 hs2 ho1 ho2
  have hup : particle.iCell d + sourceGhostBox.lower d ≤ destinationBox.upper d / ratio d := by
    apply Int.le_ediv_of_mul_le hr
    rw [mul_comm]; exact ho1
  have hlo : destinationBox.lower d / ratio d ≤ particle.iCell d + sourceGhostBox.lower d := by
    have : destinationBox.lower d / ratio d
        < particle.iCell d + sourceGhostBox.lower d + 1 := by
      apply Int.ediv_lt_of_lt_mul hr
      have : (particle.iCell d + sourceGhostBox.lower d + 1) * ratio d
          = ratio d * (particle.iCell d + sourceGhostBox.lower d) + ratio d := by ring
      omega
    omega
  simp only [localSourceBox, Box.coarsen, Box.grow, Box.intersect, AMRToLocalBox,
    Int.fdiv_eq_ediv _ (le_of_lt hr), ge_iff_le]
  constructor
  · have : max (destinationBox.lower d / ratio d - (ghostWidthForParticles interpOrder : Int))
        (sourceGhostBox.lower d) ≤ particle.iCell d + sourceGhostBox.lower d :=
      max_le (by omega) hs1
    omega
  · have : particle.iCell d + sourceGhostBox.lower d
        ≤ min (destinationBox.upper d / ratio d + (ghostWidthForParticles interpOrder : Int))
            (sourceGhostBox.upper d) :=
      le_min (by omega) hs2
    omega

/-- Witness for C12: order 1, ratio 2, source ghost box `[3, 12]`, destination box `[10, 19]`,
a particle in the coarse cell of global index 5 (local index 2), whose footprint is the fine
cells 10 and 11. -/
theorem isInBox_of_footprint_overlap_witness :
    ((∀ d, 1 ≤ ratioTwo d)
      ∧ (∀ d, (mkBox 3 12).lower d ≤ localToAMR (mkParticle 1 2 (1 / 4)).iCell (mkBox 3 12) d
          ∧ localToAMR (mkParticle 1 2 (1 / 4)).iCell (mkBox 3 12) d ≤ (mkBox 3 12).upper d)
      ∧ (∀ d,
          ratioTwo d * localToAMR (mkParticle 1 2 (1 / 4)).iCell (mkBox 3 12) d
              ≤ (mkBox 10 19).upper d
          ∧ (mkBox 10 19).lower d
              ≤ ratioTwo d * localToAMR (mkParticle 1 2 (1 / 4)).iCell (mkBox 3 12) d
                + ratioTwo d - 1))
    ∧ isInBox (mkParticle 1 2 (1 / 4)) (localSourceBox 1 ratioTwo (mkBox 3 12) (mkBox 10 19))
        = true :=
  ⟨⟨by decide, by decide, by decide⟩,
    isInBox_of_footprint_overlap 1 ratioTwo (mkBox 3 12) (mkBox 10 19) (mkParticle 1 2 (1 / 4))
      (by decide) (by decide) (by decide)⟩

/-! ## C13: children on a face shared by two destination boxes -/

/-- The children that the example call contributes for the adjacent boxes `[10, 14]` and
`[15, 19]`: the coarse particle (global coarse cell 7, `delta = 1/8`) is shifted to the fine
cell of local index 5 at `delta = 1/4`; its children sit at `5.0` and `5.5`. -/
theorem produced_face_example :
    produced ParticlesDataSplitType.interior 1 (splitModel quarterOffset) coarseDataFace
        ratioTwo unitGeometry (mkBox 9 20) (mkBox 10 19) [mkBox 10 14, mkBox 15 19]
      = [mkParticle (1 / 2) 5 0, mkParticle (1 / 2) 5 0, mkParticle (1 / 2) 5 (1 / 2)] := by
  have hf1 : Int.fract (1 / 2 : ℚ) = 1 / 2 := by
    rw [Int.fract_eq_iff]; refine ⟨by norm_num, by norm_num, 0, by norm_num⟩
  have hf2 : Int.fract (1 / 4 : ℚ) = 1 / 4 := by
    rw [Int.fract_eq_iff]; refine ⟨by norm_num, by norm_num, 0, by norm_num⟩
  have hfl : ⌊(21 / 4 : ℚ)⌋ = 5 := by
    rw [Int.floor_eq_iff]; norm_num
  simp [produced, producedForBox, producedForParticle, coarseDataFace,
    isInBox, localSourceBox, Box.coarsen, Box.grow, Box.intersect, AMRToLocalBox, mkBox,
    mkParticle, ratioTwo, ghostWidthForParticles, shiftParticle,
    shiftDeltaAndiCell, localToAMR, refinedPosition, AMRToLocal, truncToInt, splitModel,
    refinedParticleNbr, splitChild, quarterOffset, isInSplit, particlesPositionX,
    physicalLowerDestination, physicalUpperDestination, destinationBoxLocalToDomain,
    unitGeometry, dirX, isCoarseBoundarySplitType, List.range_succ, List.filter_cons]
  norm_num [hf1, hf2, hfl]

/-- C13, the code at the failing input: interior variant of order 1, ratio 2, unit mesh
size, fine patch with domain box `[10, 19]`, and the two disjoint, adjacent destination boxes
`[10, 14]` and `[15, 19]`. The one source particle has two children; the first sits exactly
on the face shared by the two boxes (upper face of the first, lower face of the second),
passes the closed-interval test of `isInSplit` for both boxes, and is appended twice. -/
theorem refine_interior_duplicates_child_on_shared_face :
    (mkBox 10 14).upper dirX < (mkBox 15 19).lower dirX
    ∧ coarseDataFace.domainParticles ++ coarseDataFace.ghostParticles
        = [mkParticle 1 4 (1 / 8)]
    ∧ splitModel quarterOffset (toUint32 (ratioTwo dirX)) refinedParticleNbr
          (shiftParticle coarseDataFace.ghostBox fineData.ghostBox ratioTwo
            (mkParticle 1 4 (1 / 8)))
        = [mkParticle (1 / 2) 5 0, mkParticle (1 / 2) 5 (1 / 2)]
    ∧ (refine_ ParticlesDataSplitType.interior 1 (splitModel quarterOffset) fineData
          coarseDataFace [mkBox 10 14, mkBox 15 19] ratioTwo unitGeometry).domainParticles
        = [mkParticle (1 / 2) 5 0, mkParticle (1 / 2) 5 0, mkParticle (1 / 2) 5 (1 / 2)]
    ∧ particlesPositionX unitGeometry (mkParticle (1 / 2) 5 0)
        = physicalUpperDestination unitGeometry (mkBox 10 14) fineData.box
    ∧ particlesPositionX unitGeometry (mkParticle (1 / 2) 5 0)
        = physicalLowerDestination unitGeometry (mkBox 15 19) fineData.box := by
  have hf1 : Int.fract (1 / 2 : ℚ) = 1 / 2 := by
    rw [Int.fract_eq_iff]; refine ⟨by norm_num, by norm_num, 0, by norm_num⟩
  have hfl : ⌊(21 / 4 : ℚ)⌋ = 5 := by
    rw [Int.floor_eq_iff]; norm_num
  refine ⟨by decide, rfl, ?_, ?_, ?_, ?_⟩
  · simp [coarseDataFace, fineData, mkBox, mkParticle, ratioTwo, shiftParticle,
      shiftDeltaAndiCell, localToAMR, refinedPosition, AMRToLocal, truncToInt, splitModel,
      refinedParticleNbr, splitChild, quarterOffset, dirX, List.range_succ]
    norm_num [hf1, hfl]
  · rw [refine__eq]
    show fineData.domainParticles ++ produced _ _ _ _ _ _ (mkBox 9 20) (mkBox 10 19) _ = _
    rw [produced_face_example]
    rfl
  · simp [particlesPositionX, physicalUpperDestination, destinationBoxLocalToDomain,
      AMRToLocalBox, unitGeometry, mkParticle, mkBox, fineData, dirX]
  · simp [particlesPositionX, physicalLowerDestination, destinationBoxLocalToDomain,
      AMRToLocalBox, unitGeometry, mkParticle, mkBox, fineData, dirX]

/-! ## C14: `refine` on malformed arguments -/

/-- C14: `refine` called with a box overlap that is not a cell overlap, or with destination
or source patch data that is not particle data, does not complete normally: it ends with a
failure (`std::bad_cast` for the overlap) before `refine_` runs, and the destination patch is
left as it was, so no particle is appended to any destination buffer. -/
theorem refine_fails_on_malformed_input (splitType : ParticlesDataSplitType)
    (interpOrder : Nat) (Split : SplitOperator) (destination source : Patch)
    (destinationComponent sourceComponent : Int) (fineOverlap : BoxOverlap)
    (ratio : Fin 1 → Int)
    (hMalformed : fineOverlap = BoxOverlap.otherOverlap
      ∨ destination.getPatchData destinationComponent = PatchData.otherData
      ∨ source.getPatchData sourceComponent = PatchData.otherData) :
    (refine splitType interpOrder Split destination source destinationComponent
        sourceComponent fineOverlap ratio).failure ≠ none
    ∧ (refine splitType interpOrder Split destination source destinationComponent
        sourceComponent fineOverlap ratio).destination = destination
    ∧ (refine splitType interpOrder Split destination source destinationComponent
        sourceComponent BoxOverlap.otherOverlap ratio).failure
        = some RefineFailure.badCast := by
  have hbody : ∃ failure, refineBody splitType interpOrder Split destination source
      destinationComponent sourceComponent fineOverlap ratio = Except.error failure := by
    cases fineOverlap with
    | otherOverlap => exact ⟨_, rfl⟩
    | cellOverlap boxes =>
      rcases hMalformed with h | h | h
      · cases h
      · exact ⟨RefineFailure.assertionFailed, by
          simp [refineBody, dynamicCastCellOverlap, h, dynamicPointerCastParticlesData,
            TBOX_ASSERT, bind, Except.bind]⟩
      · cases hd : destination.getPatchData destinationComponent with
        | otherData =>
          exact ⟨RefineFailure.assertionFailed, by
            simp [refineBody, dynamicCastCellOverlap, hd, dynamicPointerCastParticlesData,
              TBOX_ASSERT, bind, Except.bind]⟩
        | particlesData data =>
          exact ⟨RefineFailure.assertionFailed, by
            simp [refineBody, dynamicCastCellOverlap, hd, h, dynamicPointerCastParticlesData,
              TBOX_ASSERT, bind, Except.bind]⟩
  obtain ⟨failure, hfail⟩ := hbody
  refine ⟨?_, ?_, rfl⟩
  · simp [refine, hfail]
  · simp [refine, hfail]

/-- Witness for C14: the `interior` operator called with an overlap that is not a cell
overlap on a patch holding particle data. -/
theorem refine_fails_on_malformed_input_witness :
    (BoxOverlap.otherOverlap = BoxOverlap.otherOverlap
      ∨ finePatch.getPatchData 0 = PatchData.otherData
      ∨ coarsePatch.getPatchData 0 = PatchData.otherData)
    ∧ (refine ParticlesDataSplitType.interior 1 (splitModel quarterOffset) finePatch
        coarsePatch 0 0 BoxOverlap.otherOverlap ratioTwo).failure ≠ none
    ∧ (refine ParticlesDataSplitType.interior 1 (splitModel quarterOffset) finePatch
        coarsePatch 0 0 BoxOverlap.otherOverlap ratioTwo).destination = finePatch
    ∧ (refine ParticlesDataSplitType.interior 1 (splitModel quarterOffset) finePatch
        coarsePatch 0 0 BoxOverlap.otherOverlap ratioTwo).failure
        = some RefineFailure.badCast :=
  ⟨Or.inl rfl,
    refine_fails_on_malformed_input ParticlesDataSplitType.interior 1
      (splitModel quarterOffset) finePatch coarsePatch 0 0 BoxOverlap.otherOverlap ratioTwo
      (Or.inl rfl)⟩

/-! ## C15 – C17: the calls made on the communicators -/

/-- C15: on the root level (`levelNumber == 0`) `registerLevel` registers the level with
exactly the three ghost communicators (magnetic ghosts, electric ghosts, ghost particles) and
with no init communicator; on every non-root level it registers the level with those three
and then with all six init communicators (magnetic, electric, ion bulk, ion density, interior
particles, coarse-to-fine particles). For every behaviour of the communicators, the call is
the sequential execution of exactly these `registerLevel` calls. -/
theorem registerLevel_calls {σ ε : Type} (perform : CommunicatorsSemantics σ ε)
    (hierarchy : PatchHierarchy) (levelNumber : Int) (state : σ)
    (hNonRoot : levelNumber ≠ 0) :
    registerLevel perform hierarchy 0 state
      = performAll perform
          [CommunicatorsCall.registerLevel CommunicatorsMember.magneticGhosts_ hierarchy
              (hierarchy.getPatchLevel 0),
            CommunicatorsCall.registerLevel CommunicatorsMember.electricGhosts_ hierarchy
              (hierarchy.getPatchLevel 0),
            CommunicatorsCall.registerLevel CommunicatorsMember.ghostParticles_ hierarchy
              (hierarchy.getPatchLevel 0)] state
    ∧ registerLevel perform hierarchy levelNumber state
      = performAll perform
          [CommunicatorsCall.registerLevel CommunicatorsMember.magneticGhosts_ hierarchy
              (hierarchy.getPatchLevel levelNumber),
            CommunicatorsCall.registerLevel CommunicatorsMember.electricGhosts_ hierarchy
              (hierarchy.getPatchLevel levelNumber),
            CommunicatorsCall.registerLevel CommunicatorsMember.ghostParticles_ hierarchy
              (hierarchy.getPatchLevel levelNumber),
            CommunicatorsCall.registerLevel CommunicatorsMember.magneticInit_ hierarchy
              (hierarchy.getPatchLevel levelNumber),
            CommunicatorsCall.registerLevel CommunicatorsMember.electricInit_ hierarchy
              (hierarchy.getPatchLevel levelNumber),
            CommunicatorsCall.registerLevel CommunicatorsMember.ionBulkInit_ hierarchy
              (hierarchy.getPatchLevel levelNumber),
            CommunicatorsCall.registerLevel CommunicatorsMember.ionDensityInit_ hierarchy
              (hierarchy.getPatchLevel levelNumber),
            CommunicatorsCall.registerLevel CommunicatorsMember.interiorParticles_ hierarchy
              (hierarchy.getPatchLevel levelNumber),
            CommunicatorsCall.registerLevel CommunicatorsMember.coarseToFineParticles_ hierarchy
              (hierarchy.getPatchLevel levelNumber)] state := by
  constructor
  · simp [registerLevel, performAll, rootLevelNumber]
  · simp [registerLevel, performAll, rootLevelNumber, hNonRoot]

/-- Witness for C15: level 1 of `oneHierarchy`, with the recording semantics started on an
empty log. -/
theorem registerLevel_calls_witness :
    (1 : Int) ≠ 0
    ∧ registerLevel (recordCall neverFails) oneHierarchy 0 []
      = performAll (recordCall neverFails)
          [CommunicatorsCall.registerLevel CommunicatorsMember.magneticGhosts_ oneHierarchy
              (oneHierarchy.getPatchLevel 0),
            CommunicatorsCall.registerLevel CommunicatorsMember.electricGhosts_ oneHierarchy
              (oneHierarchy.getPatchLevel 0),
            CommunicatorsCall.registerLevel CommunicatorsMember.ghostParticles_ oneHierarchy
              (oneHierarchy.getPatchLevel 0)] []
    ∧ registerLevel (recordCall neverFails) oneHierarchy 1 []
      = performAll (recordCall neverFails)
          [CommunicatorsCall.registerLevel CommunicatorsMember.magneticGhosts_ oneHierarchy
              (oneHierarchy.getPatchLevel 1),
            CommunicatorsCall.registerLevel CommunicatorsMember.electricGhosts_ oneHierarchy
              (oneHierarchy.getPatchLevel 1),
            CommunicatorsCall.registerLevel CommunicatorsMember.ghostParticles_ oneHierarchy
              (oneHierarchy.getPatchLevel 1),
            CommunicatorsCall.registerLevel CommunicatorsMember.magneticInit_ oneHierarchy
              (oneHierarchy.getPatchLevel 1),
            CommunicatorsCall.registerLevel CommunicatorsMember.electricInit_ oneHierarchy
              (oneHierarchy.getPatchLevel 1),
            CommunicatorsCall.registerLevel CommunicatorsMember.ionBulkInit_ oneHierarchy
              (oneHierarchy.getPatchLevel 1),
            CommunicatorsCall.registerLevel CommunicatorsMember.ionDensityInit_ oneHierarchy
              (oneHierarchy.getPatchLevel 1),
            CommunicatorsCall.registerLevel CommunicatorsMember.interiorParticles_ oneHierarchy
              (oneHierarchy.getPatchLevel 1),
            CommunicatorsCall.registerLevel CommunicatorsMember.coarseToFineParticles_
              oneHierarchy (oneHierarchy.getPatchLevel 1)] [] :=
  ⟨by decide, registerLevel_calls (recordCall neverFails) oneHierarchy 1 [] (by decide)⟩

/-- C16: for every level number and time, `initLevel` calls `initialize` once on each of seven
communicators with that level number and time, in the order magnetic init, electric init,
ion bulk init, ion density init, interior particles, coarse-to-fine particles, ghost
particles, and calls nothing else: for every behaviour of the communicators it is the
sequential execution of exactly these seven calls, and with the recording semantics in which
no call throws the log is these seven calls. -/
theorem initLevel_calls {σ ε : Type} (perform : CommunicatorsSemantics σ ε)
    (levelNumber : Int) (initDataTime : ℚ) (state : σ) :
    initLevel perform levelNumber initDataTime state
      = performAll perform
          [CommunicatorsCall.initializeOn CommunicatorsMember.magneticInit_ levelNumber
              initDataTime,
            CommunicatorsCall.initializeOn CommunicatorsMember.electricInit_ levelNumber
              initDataTime,
            CommunicatorsCall.initializeOn CommunicatorsMember.ionBulkInit_ levelNumber
              initDataTime,
            CommunicatorsCall.initializeOn CommunicatorsMember.ionDensityInit_ levelNumber
              initDataTime,
            CommunicatorsCall.initializeOn CommunicatorsMember.interiorParticles_ levelNumber
              initDataTime,
            CommunicatorsCall.initializeOn CommunicatorsMember.coarseToFineParticles_
              levelNumber initDataTime,
            CommunicatorsCall.initializeOn CommunicatorsMember.ghostParticles_ levelNumber
              initDataTime] state
    ∧ initLevel (recordCall neverFails) levelNumber initDataTime []
      = Except.ok
          [CommunicatorsCall.initializeOn CommunicatorsMember.magneticInit_ levelNumber
              initDataTime,
            CommunicatorsCall.initializeOn CommunicatorsMember.electricInit_ levelNumber
              initDataTime,
            CommunicatorsCall.initializeOn CommunicatorsMember.ionBulkInit_ levelNumber
              initDataTime,
            CommunicatorsCall.initializeOn CommunicatorsMember.ionDensityInit_ levelNumber
              initDataTime,
            CommunicatorsCall.initializeOn CommunicatorsMember.interiorParticles_ levelNumber
              initDataTime,
            CommunicatorsCall.initializeOn CommunicatorsMember.coarseToFineParticles_
              levelNumber initDataTime,
            CommunicatorsCall.initializeOn CommunicatorsMember.ghostParticles_ levelNumber
              initDataTime] := by
  constructor
  · simp [initLevel, performAll]
  · rfl

/-- C17, the code on every input: `regrid` is the sequential execution of `regrid` on four
communicators only (magnetic, electric, ion bulk and ion density init); with the recording
semantics the log is these four calls, and it holds no call on `interiorParticles_` or on
`coarseToFineParticles_`. -/
theorem regrid_calls {σ ε : Type} (perform : CommunicatorsSemantics σ ε)
    (hierarchy : PatchHierarchy) (levelNumber : Int) (oldLevel : PatchLevel)
    (initDataTime : ℚ) (state : σ) :
    regrid perform hierarchy levelNumber oldLevel initDataTime state
      = performAll perform
          [CommunicatorsCall.regrid CommunicatorsMember.magneticInit_ hierarchy levelNumber
              oldLevel initDataTime,
            CommunicatorsCall.regrid CommunicatorsMember.electricInit_ hierarchy levelNumber
              oldLevel initDataTime,
            CommunicatorsCall.regrid CommunicatorsMember.ionBulkInit_ hierarchy levelNumber
              oldLevel initDataTime,
            CommunicatorsCall.regrid CommunicatorsMember.ionDensityInit_ hierarchy levelNumber
              oldLevel initDataTime] state
    ∧ regrid (recordCall neverFails) hierarchy levelNumber oldLevel initDataTime []
      = Except.ok
          [CommunicatorsCall.regrid CommunicatorsMember.magneticInit_ hierarchy levelNumber
              oldLevel initDataTime,
            CommunicatorsCall.regrid CommunicatorsMember.electricInit_ hierarchy levelNumber
              oldLevel initDataTime,
            CommunicatorsCall.regrid CommunicatorsMember.ionBulkInit_ hierarchy levelNumber
              oldLevel initDataTime,
            CommunicatorsCall.regrid CommunicatorsMember.ionDensityInit_ hierarchy levelNumber
              oldLevel initDataTime] := by
  constructor
  · simp [regrid, performAll]
  · rfl

/-! ## C18: `lastStep` -/

theorem lastStep_fold_modelElectromag {Data : Type} (patches : List Nat)
    (storage : ElectromagStorage Data) :
    (lastStep { patches := patches } storage).modelElectromag = storage.modelElectromag := by
  unfold lastStep
  induction patches generalizing storage with
  | nil => rfl
  | cons p ps ih => rw [List.foldl_cons, ih]

theorem lastStep_fold_EM_old {Data : Type} (patches : List Nat)
    (storage : ElectromagStorage Data) (patch : Nat) :
    (lastStep { patches := patches } storage).EM_old_ patch
      = if patch ∈ patches then storage.modelElectromag patch else storage.EM_old_ patch := by
  unfold lastStep
  induction patches generalizing storage with
  | nil => simp
  | cons p ps ih =>
    rw [List.foldl_cons, ih]
    by_cases hps : patch ∈ ps
    · simp [hps]
    · by_cases hp : patch = p
      · subst hp; simp [hps, copyData]
      · simp [hps, hp, Function.update_noteq hp]

/-- C18: after `lastStep(model, level)`, on every patch of the level the old electromagnetic
snapshot `EM_old_` equals the model's current electromagnetic field on that patch, and the
model's field is unchanged; after a second `lastStep` made when the model holds other values
`later`, the snapshot on the patch equals `later`, the values of the second call only. -/
theorem lastStep_snapshot {Data : Type} (level : PatchLevel)
    (storage : ElectromagStorage Data) (later : Nat → Data) (patch : Nat)
    (hPatch : patch ∈ level.patches) :
    (lastStep level storage).EM_old_ patch = storage.modelElectromag patch
    ∧ (lastStep level storage).modelElectromag = storage.modelElectromag
    ∧ (lastStep level { lastStep level storage with modelElectromag := later }).EM_old_ patch
        = later patch
    ∧ (lastStep level { lastStep level storage with modelElectromag := later }).modelElectromag
        = later := by
  obtain ⟨patches⟩ := level
  simp only at hPatch
  refine ⟨?_, lastStep_fold_modelElectromag _ _, ?_, lastStep_fold_modelElectromag _ _⟩
  · rw [lastStep_fold_EM_old, if_pos hPatch]
  · rw [lastStep_fold_EM_old, if_pos hPatch]

/-- Witness for C18: a level with the patches 0 and 1, integer field values, the model
holding `10 + patch` at the first call and `20 + patch` at the second. -/
theorem lastStep_snapshot_witness :
    1 ∈ ({ patches := [0, 1] } : PatchLevel).patches
    ∧ (lastStep { patches := [0, 1] }
          ({ modelElectromag := fun p => 10 + p, EM_old_ := fun _ => 0 } :
            ElectromagStorage Nat)).EM_old_ 1
        = ({ modelElectromag := fun p => 10 + p, EM_old_ := fun _ => 0 } :
            ElectromagStorage Nat).modelElectromag 1
    ∧ (lastStep { patches := [0, 1] }
          ({ modelElectromag := fun p => 10 + p, EM_old_ := fun _ => 0 } :
            ElectromagStorage Nat)).modelElectromag
        = ({ modelElectromag := fun p => 10 + p, EM_old_ := fun _ => 0 } :
            ElectromagStorage Nat).modelElectromag
    ∧ (lastStep { patches := [0, 1] }
          { lastStep { patches := [0, 1] }
              ({ modelElectromag := fun p => 10 + p, EM_old_ := fun _ => 0 } :
                ElectromagStorage Nat) with
            modelElectromag := fun p => 20 + p }).EM_old_ 1
        = (fun p => 20 + p) 1
    ∧ (lastStep { patches := [0, 1] }
          { lastStep { patches := [0, 1] }
              ({ modelElectromag := fun p => 10 + p, EM_old_ := fun _ => 0 } :
                ElectromagStorage Nat) with
            modelElectromag := fun p => 20 + p }).modelElectromag
        = fun p => 20 + p :=
  ⟨by decide,
    lastStep_snapshot { patches := [0, 1] }
      { modelElectromag := fun p => 10 + p, EM_old_ := fun _ => 0 } (fun p => 20 + p) 1
      (by decide)⟩

/-! ## C19: `registerQuantities` -/

theorem performAll_append {σ ε : Type} (perform : CommunicatorsSemantics σ ε)
    (calls calls2 : List CommunicatorsCall) (state : σ) :
    performAll perform (calls ++ calls2) state
      = (performAll perform calls state) >>= performAll perform calls2 := by
  unfold performAll
  rw [List.foldlM_append]

theorem makeCommunicatorsGhost__eq {σ ε : Type} (perform : CommunicatorsSemantics σ ε)
    (ghostVecs : List VecFieldDescriptor) (modelVec oldModelVec : VecFieldDescriptor)
    (communicators : CommunicatorsMember) (state : σ) :
    makeCommunicatorsGhost_ perform ghostVecs modelVec oldModelVec communicators state
      = performAll perform
          (ghostVecs.map (fun ghostVec =>
            CommunicatorsCall.addGhostField communicators ghostVec modelVec oldModelVec
              ghostVec.vecName)) state := by
  unfold makeCommunicatorsGhost_ performAll
  induction ghostVecs generalizing state with
  | nil => rfl
  | cons g gs ih =>
    simp only [List.foldlM_cons, List.map_cons]
    congr 1
    funext s
    exact ih s

theorem makeCommunicators__eq {σ ε α : Type} (perform : CommunicatorsSemantics σ ε)
    (items : List α) (toDescriptor : α → Descriptor) (toKey : α → String)
    (refineOp : RefineOperatorMember) (communicators : CommunicatorsMember) (state : σ) :
    makeCommunicators_ perform (items.map toDescriptor) refineOp communicators
        (items.map toKey) state
      = performAll perform
          (items.map (fun item =>
            CommunicatorsCall.add communicators (toDescriptor item) refineOp (toKey item)))
          state := by
  unfold makeCommunicators_ performAll
  induction items generalizing state with
  | nil => rfl
  | cons a as ih =>
    simp only [List.map_cons, List.zip_cons_cons, List.foldlM_cons]
    congr 1
    funext s
    exact ih s

theorem makeCommunicators__names_eq {σ ε : Type} (perform : CommunicatorsSemantics σ ε)
    (names : List String) (refineOp : RefineOperatorMember)
    (communicators : CommunicatorsMember) (state : σ) :
    makeCommunicators_ perform (names.map Descriptor.name) refineOp communicators names state
      = performAll perform
          (names.map (fun name =>
            CommunicatorsCall.add communicators (Descriptor.name name) refineOp name))
          state := by
  have h := makeCommunicators__eq perform names Descriptor.name id refineOp communicators state
  rw [List.map_id] at h
  exact h

/-- C19, counterexample: `registerQuantities` called with an info whose `ghostElectric` and
`ghostMagnetic` lists are empty completes: with the recording semantics it returns normally,
having made the one `add` on `magneticInit_` and no `add` on a ghost communicator. -/
theorem registerQuantities_completes_without_ghost_descriptors :
    infoWithoutGhosts.ghostElectric = []
    ∧ infoWithoutGhosts.ghostMagnetic = []
    ∧ registerQuantities (recordCall neverFails) { vecName := "Eold" } { vecName := "Bold" }
          infoWithoutGhosts []
        = Except.ok
            [CommunicatorsCall.add CommunicatorsMember.magneticInit_
              (Descriptor.vecField { vecName := "B" }) RefineOperatorMember.fieldRefineOp_
              "B"] :=
  ⟨rfl, rfl, rfl⟩

/-- C19, amended: `registerQuantities` makes no check on the ghost descriptors. For every
info and every behaviour of the communicators it is the sequential execution of one `add`
per descriptor: the ghost electric descriptors, then the ghost magnetic ones, then the init
magnetic, init electric, ion bulk, ion density, interior particle, coarse-to-fine particle
and ghost particle ones; an empty `ghostElectric` or `ghostMagnetic` list contributes no
call, and an exception can only come from one of the `add` calls. -/
theorem registerQuantities_calls {σ ε : Type} (perform : CommunicatorsSemantics σ ε)
    (Eold Bold : VecFieldDescriptor) (info : HybridMessengerInfo) (state : σ) :
    registerQuantities perform Eold Bold info state
      = performAll perform
          (info.ghostElectric.map (fun ghostVec =>
              CommunicatorsCall.addGhostField CommunicatorsMember.electricGhosts_ ghostVec
                info.modelElectric Eold ghostVec.vecName)
            ++ info.ghostMagnetic.map (fun ghostVec =>
              CommunicatorsCall.addGhostField CommunicatorsMember.magneticGhosts_ ghostVec
                info.modelMagnetic Bold ghostVec.vecName)
            ++ info.initMagnetic.map (fun d =>
              CommunicatorsCall.add CommunicatorsMember.magneticInit_ (Descriptor.vecField d)
                RefineOperatorMember.fieldRefineOp_ d.vecName)
            ++ info.initElectric.map (fun d =>
              CommunicatorsCall.add CommunicatorsMember.electricInit_ (Descriptor.vecField d)
                RefineOperatorMember.fieldRefineOp_ d.vecName)
            ++ info.initIonBulk.map (fun d =>
              CommunicatorsCall.add CommunicatorsMember.ionBulkInit_ (Descriptor.vecField d)
                RefineOperatorMember.fieldRefineOp_ d.vecName)
            ++ info.initIonDensity.map (fun name =>
              CommunicatorsCall.add CommunicatorsMember.ionDensityInit_ (Descriptor.name name)
                RefineOperatorMember.fieldRefineOp_ name)
            ++ info.interiorParticles.map (fun name =>
              CommunicatorsCall.add CommunicatorsMember.interiorParticles_
                (Descriptor.name name) RefineOperatorMember.interiorParticleRefineOp_ name)
            ++ info.coarseToFineParticles.map (fun name =>
              CommunicatorsCall.add CommunicatorsMember.coarseToFineParticles_
                (Descriptor.name name) RefineOperatorMember.coarseToFineRefineOp_ name)
            ++ info.ghostParticles.map (fun name =>
              CommunicatorsCall.add CommunicatorsMember.ghostParticles_
                (Descriptor.name name) RefineOperatorMember.nullOperator name)) state := by
  simp only [registerQuantities, registerGhostsQuantities_, registerInitQuantities_, makeKeys,
    makeCommunicatorsGhost__eq, makeCommunicators__eq, makeCommunicators__names_eq,
    performAll_append, bind_assoc]

/-! ## C20: ghost fills -/

/-- C20: `fillMagneticGhosts(B, level, time)` is exactly one `fillGhosts` on `magneticGhosts_`
with the same field, level and time, and `fillElectricGhosts(E, level, time)` exactly one
`fillGhosts` on `electricGhosts_`: for every behaviour of the communicators the outcome of
the member function is the outcome of that one call, so an exception of the communicators
reaches the caller; with the recording semantics the log holds that one call and no other,
whether it throws or not. -/
theorem fillGhosts_delegates {σ ε : Type} (perform : CommunicatorsSemantics σ ε)
    (fails : CommunicatorsCall → Bool) (field : VecField) (levelNumber : Int) (fillTime : ℚ)
    (state : σ) :
    fillMagneticGhosts perform field levelNumber fillTime state
      = perform (CommunicatorsCall.fillGhosts CommunicatorsMember.magneticGhosts_ field
          levelNumber fillTime) state
    ∧ fillElectricGhosts perform field levelNumber fillTime state
      = perform (CommunicatorsCall.fillGhosts CommunicatorsMember.electricGhosts_ field
          levelNumber fillTime) state
    ∧ fillMagneticGhosts (recordCall fails) field levelNumber fillTime []
      = (if fails (CommunicatorsCall.fillGhosts CommunicatorsMember.magneticGhosts_ field
            levelNumber fillTime)
          then Except.error [CommunicatorsCall.fillGhosts CommunicatorsMember.magneticGhosts_
            field levelNumber fillTime]
          else Except.ok [CommunicatorsCall.fillGhosts CommunicatorsMember.magneticGhosts_
            field levelNumber fillTime])
    ∧ fillElectricGhosts (recordCall fails) field levelNumber fillTime []
      = (if fails (CommunicatorsCall.fillGhosts CommunicatorsMember.electricGhosts_ field
            levelNumber fillTime)
          then Except.error [CommunicatorsCall.fillGhosts CommunicatorsMember.electricGhosts_
            field levelNumber fillTime]
          else Except.ok [CommunicatorsCall.fillGhosts CommunicatorsMember.electricGhosts_
            field levelNumber fillTime]) :=
  ⟨rfl, rfl, rfl, rfl⟩

/-! ## C21: the synchronisation member functions -/

/-- C21: `syncMagnetic`, `syncElectric` and `syncIonMoments` are no-ops on the simulation
state: for every argument and every state they leave the passed field or ions, the state of
every communicator and the electromagnetic storage, `EM_old_` included, as they were (they
only write a line to `std::cout`). -/
theorem sync_functions_change_nothing {Field Ions σ Data : Type}
    (fieldWorld : StrategyWorld Field σ Data) (ionsWorld : StrategyWorld Ions σ Data) :
    ((syncMagnetic fieldWorld).argument = fieldWorld.argument
      ∧ (syncMagnetic fieldWorld).communicators = fieldWorld.communicators
      ∧ (syncMagnetic fieldWorld).storage = fieldWorld.storage)
    ∧ ((syncElectric fieldWorld).argument = fieldWorld.argument
      ∧ (syncElectric fieldWorld).communicators = fieldWorld.communicators
      ∧ (syncElectric fieldWorld).storage = fieldWorld.storage)
    ∧ ((syncIonMoments ionsWorld).argument = ionsWorld.argument
      ∧ (syncIonMoments ionsWorld).communicators = ionsWorld.communicators
      ∧ (syncIonMoments ionsWorld).storage = ionsWorld.storage) :=
  ⟨⟨rfl, rfl, rfl⟩, ⟨rfl, rfl, rfl⟩, ⟨rfl, rfl, rfl⟩⟩

/-! ## C22: `Point` -/

theorem foldl_update_finRange_apply {T : Type} {dim : Nat} (c : Nat → T)
    (l : List (Fin dim)) (r : Fin dim → T) (i : Fin dim) :
    (l.foldl (fun r j => Function.update r j (c j.val)) r) i
      = if i ∈ l then c i.val else r i := by
  induction l generalizing r with
  | nil => simp
  | cons j l ih =>
    rw [List.foldl_cons, ih]
    by_cases hl : i ∈ l
    · simp [hl]
    · by_cases hj : i = j
      · subst hj; simp [hl]
      · simp [hl, hj, Function.update_noteq hj]

/-- C22: `Point` is a fixed tuple. A default-constructed `Point` has every coordinate 0; a
`Point` constructed from `dim` values (variadic arguments, a `std::array`, or a subscriptable
container, whatever the member held before the loop) returns the `i`-th value at index `i`
for every `i < dim`; after an assignment through `operator[]` at index `i`, index `i` reads
back the new value and every other coordinate `j` is unchanged. -/
theorem point_is_fixed_tuple {T : Type} [Zero T] {dim : Nat} (index : List T)
    (hCount : index.length = dim) (coords : Fin dim → T) (c : Nat → T)
    (uninitialised : Fin dim → T) (p : Point T dim) (value : T) (i j : Fin dim)
    (hOther : j ≠ i) :
    (Point.default : Point T dim).get i = 0
    ∧ (Point.ofArguments index hCount).get i
        = index.get ⟨i.val, by rw [hCount]; exact i.isLt⟩
    ∧ (Point.ofArray coords).get i = coords i
    ∧ (Point.ofContainer c uninitialised).get i = c i.val
    ∧ (p.set i value).get i = value
    ∧ (p.set i value).get j = p.get j := by
  refine ⟨rfl, rfl, rfl, ?_, ?_, ?_⟩
  · show (List.foldl _ uninitialised (List.finRange dim)) i = c i.val
    rw [foldl_update_finRange_apply, if_pos (List.mem_finRange i)]
  · simp [Point.set, Point.get]
  · simp [Point.set, Point.get, Function.update_noteq hOther]

/-- Witness for C22: integer points of dimension 3, built from `7, 8, 9`, read at index 1
and, after an assignment at index 1, at index 2. -/
theorem point_is_fixed_tuple_witness :
    ((2 : Fin 3) ≠ 1)
    ∧ (Point.default : Point Int 3).get 1 = 0
    ∧ (Point.ofArguments [7, 8, 9] rfl : Point Int 3).get 1
        = [(7 : Int), 8, 9].get ⟨(1 : Fin 3).val, by decide⟩
    ∧ (Point.ofArray (fun k : Fin 3 => (7 : Int) + k.val)).get 1
        = (fun k : Fin 3 => (7 : Int) + k.val) 1
    ∧ (Point.ofContainer (fun k => (7 : Int) + k) (fun _ : Fin 3 => -1)).get 1
        = (fun k : Nat => (7 : Int) + k) (1 : Fin 3).val
    ∧ ((Point.ofArray (fun k : Fin 3 => (7 : Int) + k.val)).set 1 42).get 1 = 42
    ∧ ((Point.ofArray (fun k : Fin 3 => (7 : Int) + k.val)).set 1 42).get 2
        = (Point.ofArray (fun k : Fin 3 => (7 : Int) + k.val)).get 2 :=
  ⟨by decide,
    @point_is_fixed_tuple Int _ 3 [7, 8, 9] rfl (fun k : Fin 3 => (7 : Int) + k.val)
      (fun k => (7 : Int) + k) (fun _ => -1) (Point.ofArray (fun k : Fin 3 => (7 : Int) + k.val))
      42 1 2 (by decide)⟩

/-! ## C28: the ion ghost fills -/

/-- C28: `fillIonGhostParticles` and `fillIonMomentGhosts` change nothing: for every ions
argument, level, time and state they leave the ions, the state of every communicator and the
electromagnetic storage, `EM_old_` included, as they were; when the state of the
communicators is the log of the calls made on them, the log stays empty, so no fill is
executed on the ghost-particles communicators or on any other. -/
theorem fillIon_functions_change_nothing {Population σ Data : Type}
    (world : StrategyWorld (List Population) σ Data)
    (logWorld : StrategyWorld (List Population) (List CommunicatorsCall) Data)
    (levelNumber : Int) (fillTime : ℚ) :
    ((fillIonGhostParticles world levelNumber fillTime).argument = world.argument
      ∧ (fillIonGhostParticles world levelNumber fillTime).communicators = world.communicators
      ∧ (fillIonGhostParticles world levelNumber fillTime).storage = world.storage)
    ∧ ((fillIonMomentGhosts world levelNumber fillTime).argument = world.argument
      ∧ (fillIonMomentGhosts world levelNumber fillTime).communicators = world.communicators
      ∧ (fillIonMomentGhosts world levelNumber fillTime).storage = world.storage)
    ∧ (fillIonGhostParticles { logWorld with communicators := ([] : List CommunicatorsCall) }
          levelNumber fillTime).communicators = []
    ∧ (fillIonMomentGhosts { logWorld with communicators := ([] : List CommunicatorsCall) }
          levelNumber fillTime).communicators = [] := by
  refine ⟨⟨?_, rfl, rfl⟩, ⟨rfl, rfl, rfl⟩, rfl, rfl⟩
  simp [fillIonGhostParticles]

/-! ## C25: the particle ghost width -/

/-- C25: for every interpolation order `n` below the maximum of the 64-bit unsigned type,
`ghostWidthForParticles<n>()` equals `n / 2 + 1` with integer division, each branch of the
parity test agreeing with that formula; the value is 1, 2, 2 for the orders 1, 2, 3;
`getStencilWidth` returns this value on every axis, and `refine_` grows the coarsened
destination box by exactly this vector before it intersects it with the source ghost box. -/
theorem ghostWidthForParticles_formula {dim : Nat} (interpOrder : Nat) (ratio : Fin dim → Int)
    (sourceGhostBox destinationBox : Box dim) (d : Fin dim)
    (hBelowMax : interpOrder < 2 ^ 64 - 1) :
    ghostWidthForParticles interpOrder = interpOrder / 2 + 1
    ∧ (interpOrder % 2 = 0 → (interpOrder / 2 + 1) % 2 ^ 64 = interpOrder / 2 + 1)
    ∧ (interpOrder % 2 ≠ 0 → ((interpOrder + 1) % 2 ^ 64) / 2 = interpOrder / 2 + 1)
    ∧ ghostWidthForParticles 1 = 1
    ∧ ghostWidthForParticles 2 = 2
    ∧ ghostWidthForParticles 3 = 2
    ∧ getStencilWidth interpOrder dim d = ((interpOrder / 2 + 1 : Nat) : Int)
    ∧ localSourceBox interpOrder ratio sourceGhostBox destinationBox
      = AMRToLocalBox
          (((destinationBox.coarsen ratio).grow (getStencilWidth interpOrder dim)).intersect
            sourceGhostBox)
          sourceGhostBox := by
  have hEven : interpOrder % 2 = 0 → (interpOrder / 2 + 1) % 2 ^ 64 = interpOrder / 2 + 1 := by
    intro _
    apply Nat.mod_eq_of_lt
    omega
  have hOdd : interpOrder % 2 ≠ 0 → ((interpOrder + 1) % 2 ^ 64) / 2 = interpOrder / 2 + 1 := by
    intro h
    rw [Nat.mod_eq_of_lt (by omega)]
    omega
  have hFormula : ghostWidthForParticles interpOrder = interpOrder / 2 + 1 := by
    unfold ghostWidthForParticles
    by_cases h : interpOrder % 2 = 0
    · rw [if_pos h, hEven h]
    · rw [if_neg h, hOdd h]
  refine ⟨hFormula, hEven, hOdd, by decide, by decide, by decide, ?_, rfl⟩
  simp only [getStencilWidth, hFormula]

/-- Witness for C25: interpolation order 3 in 1D, ratio 2, source ghost box `[3, 12]`,
destination box `[10, 19]`. -/
theorem ghostWidthForParticles_formula_witness :
    3 < 2 ^ 64 - 1
    ∧ ghostWidthForParticles 3 = 3 / 2 + 1
    ∧ (3 % 2 = 0 → (3 / 2 + 1) % 2 ^ 64 = 3 / 2 + 1)
    ∧ (3 % 2 ≠ 0 → ((3 + 1) % 2 ^ 64) / 2 = 3 / 2 + 1)
    ∧ ghostWidthForParticles 1 = 1
    ∧ ghostWidthForParticles 2 = 2
    ∧ ghostWidthForParticles 3 = 2
    ∧ getStencilWidth 3 1 dirX = ((3 / 2 + 1 : Nat) : Int)
    ∧ localSourceBox 3 ratioTwo (mkBox 3 12) (mkBox 10 19)
      = AMRToLocalBox
          ((((mkBox 10 19).coarsen ratioTwo).grow (getStencilWidth 3 1)).intersect (mkBox 3 12))
          (mkBox 3 12) :=
  ⟨by decide,
    ghostWidthForParticles_formula 3 ratioTwo (mkBox 3 12) (mkBox 10 19) dirX (by decide)⟩

/-! ## C26: boundary variants against the interior variant -/

theorem sublist_flatMap_of_forall {α β : Type} (f g : α → List β)
    (h : ∀ a, (f a).Sublist (g a)) (l : List α) : (l.flatMap f).Sublist (l.flatMap g) := by
  induction l with
  | nil => exact List.Sublist.refl _
  | cons a l ih =>
    rw [List.flatMap_cons, List.flatMap_cons]
    exact List.Sublist.append (h a) ih

theorem producedForParticle_boundary_eq (t u : ParticlesDataSplitType)
    (ht : isCoarseBoundarySplitType t = true) (hu : isCoarseBoundarySplitType u = true)
    (interpOrder : Nat) (split : Particle 1 → List (Particle 1)) (sourceGhostBox : Box 1)
    (ratio : Fin 1 → Int) (pGeom : CartesianPatchGeometry 1)
    (dGhost dDomain destinationBox : Box 1) (p : Particle 1) :
    producedForParticle t interpOrder split sourceGhostBox ratio pGeom dGhost dDomain
        destinationBox p
      = producedForParticle u interpOrder split sourceGhostBox ratio pGeom dGhost dDomain
        destinationBox p := by
  unfold producedForParticle
  rw [ht, hu]

theorem producedForParticle_sublist_interior (t : ParticlesDataSplitType) (interpOrder : Nat)
    (split : Particle 1 → List (Particle 1)) (sourceGhostBox : Box 1) (ratio : Fin 1 → Int)
    (pGeom : CartesianPatchGeometry 1) (dGhost dDomain destinationBox : Box 1)
    (p : Particle 1) :
    (producedForParticle t interpOrder split sourceGhostBox ratio pGeom dGhost dDomain
        destinationBox p).Sublist
      (producedForParticle ParticlesDataSplitType.interior interpOrder split sourceGhostBox
        ratio pGeom dGhost dDomain destinationBox p) := by
  unfold producedForParticle
  have hInterior : isCoarseBoundarySplitType ParticlesDataSplitType.interior = false := rfl
  rw [hInterior]
  cases isInBox p (localSourceBox interpOrder ratio sourceGhostBox destinationBox) <;>
    cases (!isCoarseBoundarySplitType t
        || isCandidateForSplit interpOrder pGeom
            (physicalLowerDestination pGeom destinationBox dDomain)
            (physicalUpperDestination pGeom destinationBox dDomain)
            (shiftParticle sourceGhostBox dGhost ratio p)) <;>
    simp

theorem flatMap_congr_of_mem {α β : Type} (f g : α → List β) (l : List α)
    (h : ∀ a ∈ l, f a = g a) : l.flatMap f = l.flatMap g := by
  induction l with
  | nil => rfl
  | cons a l ih =>
    rw [List.flatMap_cons, List.flatMap_cons, h a (List.mem_cons_self a l),
      ih (fun b hb => h b (List.mem_cons_of_mem a hb))]

theorem produced_boundary_eq (t u : ParticlesDataSplitType)
    (ht : isCoarseBoundarySplitType t = true) (hu : isCoarseBoundarySplitType u = true)
    (interpOrder : Nat) (Split : SplitOperator) (source : ParticlesData 1)
    (ratio : Fin 1 → Int) (pGeom : CartesianPatchGeometry 1) (dGhost dDomain : Box 1)
    (destinationBoxes : List (Box 1)) :
    produced t interpOrder Split source ratio pGeom dGhost dDomain destinationBoxes
      = produced u interpOrder Split source ratio pGeom dGhost dDomain destinationBoxes := by
  unfold produced producedForBox
  congr 1
  funext destinationBox
  congr 1
  funext sourceArray
  congr 1
  funext p
  exact producedForParticle_boundary_eq t u ht hu _ _ _ _ _ _ _ _ _

/-- C26: on identical inputs (same source data, destination patch data, destination boxes,
ratio and geometry) the three boundary variants append exactly the same list
`appendedBoundary`, each to its own buffer, and that list is a sublist (same relative order)
of the list `appendedInterior` that the interior variant appends to `domainParticles`; the
two lists are equal when every shifted particle of a local source box is a split candidate
for the box. -/
theorem boundary_variants_append_sublist_of_interior (interpOrder : Nat)
    (Split : SplitOperator) (destination source : ParticlesData 1)
    (destinationBoxes : List (Box 1)) (ratio : Fin 1 → Int)
    (pGeom : CartesianPatchGeometry 1) :
    ∃ appendedBoundary appendedInterior : List (Particle 1),
      (refine_ ParticlesDataSplitType.coarseBoundary interpOrder Split destination source
          destinationBoxes ratio pGeom).coarseToFineParticles
        = destination.coarseToFineParticles ++ appendedBoundary
      ∧ (refine_ ParticlesDataSplitType.coarseBoundary1 interpOrder Split destination source
          destinationBoxes ratio pGeom).coarseToFineParticlesOld
        = destination.coarseToFineParticlesOld ++ appendedBoundary
      ∧ (refine_ ParticlesDataSplitType.coarseBoundary2 interpOrder Split destination source
          destinationBoxes ratio pGeom).coarseToFineParticlesNew
        = destination.coarseToFineParticlesNew ++ appendedBoundary
      ∧ (refine_ ParticlesDataSplitType.interior interpOrder Split destination source
          destinationBoxes ratio pGeom).domainParticles
        = destination.domainParticles ++ appendedInterior
      ∧ appendedBoundary.Sublist appendedInterior
      ∧ ((∀ destinationBox ∈ destinationBoxes,
            ∀ particle ∈ source.domainParticles ++ source.ghostParticles,
              isInBox particle
                  (localSourceBox interpOrder ratio source.ghostBox destinationBox) = true →
              isCandidateForSplit interpOrder pGeom
                  (physicalLowerDestination pGeom destinationBox destination.box)
                  (physicalUpperDestination pGeom destinationBox destination.box)
                  (shiftParticle source.ghostBox destination.ghostBox ratio particle) = true)
          → appendedBoundary = appendedInterior) := by
  refine ⟨produced ParticlesDataSplitType.coarseBoundary interpOrder Split source ratio pGeom
      destination.ghostBox destination.box destinationBoxes,
    produced ParticlesDataSplitType.interior interpOrder Split source ratio pGeom
      destination.ghostBox destination.box destinationBoxes, ?_, ?_, ?_, ?_, ?_, ?_⟩
  · rw [refine__eq]; rfl
  · rw [refine__eq,
      produced_boundary_eq ParticlesDataSplitType.coarseBoundary
        ParticlesDataSplitType.coarseBoundary1 rfl rfl]
    rfl
  · rw [refine__eq,
      produced_boundary_eq ParticlesDataSplitType.coarseBoundary
        ParticlesDataSplitType.coarseBoundary2 rfl rfl]
    rfl
  · rw [refine__eq]; rfl
  · unfold produced producedForBox
    apply sublist_flatMap_of_forall
    intro destinationBox
    apply sublist_flatMap_of_forall
    intro sourceArray
    apply sublist_flatMap_of_forall
    intro p
    exact producedForParticle_sublist_interior _ _ _ _ _ _ _ _ _ _
  · intro hAll
    unfold produced producedForBox
    apply flatMap_congr_of_mem
    intro destinationBox hBox
    apply flatMap_congr_of_mem
    intro sourceArray hArray
    apply flatMap_congr_of_mem
    intro p hp
    have hpmem : p ∈ source.domainParticles ++ source.ghostParticles := by
      rw [List.mem_append]
      simp only [List.mem_cons, List.mem_singleton, List.not_mem_nil, or_false] at hArray
      rcases hArray with rfl | rfl
      · exact Or.inl hp
      · exact Or.inr hp
    unfold producedForParticle
    by_cases hin : isInBox p
        (localSourceBox interpOrder ratio source.ghostBox destinationBox) = true
    · rw [hAll destinationBox hBox p hpmem hin]
      simp
    · simp [hin]

/-- Witness for C26: interpolation order 1, the coarse particle of `coarseData` refined into
`fineData` over the destination box `[10, 19]`. -/
theorem boundary_variants_append_sublist_of_interior_witness :
    ∃ appendedBoundary appendedInterior : List (Particle 1),
      (refine_ ParticlesDataSplitType.coarseBoundary 1 (splitModel quarterOffset) fineData
          coarseData [mkBox 10 19] ratioTwo unitGeometry).coarseToFineParticles
        = fineData.coarseToFineParticles ++ appendedBoundary
      ∧ (refine_ ParticlesDataSplitType.coarseBoundary1 1 (splitModel quarterOffset) fineData
          coarseData [mkBox 10 19] ratioTwo unitGeometry).coarseToFineParticlesOld
        = fineData.coarseToFineParticlesOld ++ appendedBoundary
      ∧ (refine_ ParticlesDataSplitType.coarseBoundary2 1 (splitModel quarterOffset) fineData
          coarseData [mkBox 10 19] ratioTwo unitGeometry).coarseToFineParticlesNew
        = fineData.coarseToFineParticlesNew ++ appendedBoundary
      ∧ (refine_ ParticlesDataSplitType.interior 1 (splitModel quarterOffset) fineData
          coarseData [mkBox 10 19] ratioTwo unitGeometry).domainParticles
        = fineData.domainParticles ++ appendedInterior
      ∧ appendedBoundary.Sublist appendedInterior
      ∧ ((∀ destinationBox ∈ [mkBox 10 19],
            ∀ particle ∈ coarseData.domainParticles ++ coarseData.ghostParticles,
              isInBox particle
                  (localSourceBox 1 ratioTwo coarseData.ghostBox destinationBox) = true →
              isCandidateForSplit 1 unitGeometry
                  (physicalLowerDestination unitGeometry destinationBox fineData.box)
                  (physicalUpperDestination unitGeometry destinationBox fineData.box)
                  (shiftParticle coarseData.ghostBox fineData.ghostBox ratioTwo particle)
                = true)
          → appendedBoundary = appendedInterior) :=
  boundary_variants_append_sublist_of_interior 1 (splitModel quarterOffset) fineData coarseData
    [mkBox 10 19] ratioTwo unitGeometry

/-! ## C27: `initLevel` on the root level -/

/-- C27: `initLevel` has no root-level guard. For every behaviour of the communicators,
`registerLevel` on level 0 followed by `initLevel` on level 0 is the sequential execution of
`registerLevel` on the three ghost communicators and then of `initialize` on the six init
communicators and on the ghost particles; with the recording semantics the log holds these
ten calls: `initialize` is run on `magneticInit_`, `electricInit_`, `ionBulkInit_`,
`ionDensityInit_`, `interiorParticles_` and `coarseToFineParticles_`, none of which received a
`registerLevel` for the level. -/
theorem initLevel_root_level_unguarded {σ ε : Type} (perform : CommunicatorsSemantics σ ε)
    (hierarchy : PatchHierarchy) (initDataTime : ℚ) (state : σ) :
    (registerLevel perform hierarchy 0 state >>= initLevel perform 0 initDataTime)
      = performAll perform
          [CommunicatorsCall.registerLevel CommunicatorsMember.magneticGhosts_ hierarchy
              (hierarchy.getPatchLevel 0),
            CommunicatorsCall.registerLevel CommunicatorsMember.electricGhosts_ hierarchy
              (hierarchy.getPatchLevel 0),
            CommunicatorsCall.registerLevel CommunicatorsMember.ghostParticles_ hierarchy
              (hierarchy.getPatchLevel 0),
            CommunicatorsCall.initializeOn CommunicatorsMember.magneticInit_ 0 initDataTime,
            CommunicatorsCall.initializeOn CommunicatorsMember.electricInit_ 0 initDataTime,
            CommunicatorsCall.initializeOn CommunicatorsMember.ionBulkInit_ 0 initDataTime,
            CommunicatorsCall.initializeOn CommunicatorsMember.ionDensityInit_ 0 initDataTime,
            CommunicatorsCall.initializeOn CommunicatorsMember.interiorParticles_ 0
              initDataTime,
            CommunicatorsCall.initializeOn CommunicatorsMember.coarseToFineParticles_ 0
              initDataTime,
            CommunicatorsCall.initializeOn CommunicatorsMember.ghostParticles_ 0 initDataTime]
          state
    ∧ (registerLevel (recordCall neverFails) hierarchy 0 []
          >>= initLevel (recordCall neverFails) 0 initDataTime)
      = Except.ok
          [CommunicatorsCall.registerLevel CommunicatorsMember.magneticGhosts_ hierarchy
              (hierarchy.getPatchLevel 0),
            CommunicatorsCall.registerLevel CommunicatorsMember.electricGhosts_ hierarchy
              (hierarchy.getPatchLevel 0),
            CommunicatorsCall.registerLevel CommunicatorsMember.ghostParticles_ hierarchy
              (hierarchy.getPatchLevel 0),
            CommunicatorsCall.initializeOn CommunicatorsMember.magneticInit_ 0 initDataTime,
            CommunicatorsCall.initializeOn CommunicatorsMember.electricInit_ 0 initDataTime,
            CommunicatorsCall.initializeOn CommunicatorsMember.ionBulkInit_ 0 initDataTime,
            CommunicatorsCall.initializeOn CommunicatorsMember.ionDensityInit_ 0 initDataTime,
            CommunicatorsCall.initializeOn CommunicatorsMember.interiorParticles_ 0
              initDataTime,
            CommunicatorsCall.initializeOn CommunicatorsMember.coarseToFineParticles_ 0
              initDataTime,
            CommunicatorsCall.initializeOn CommunicatorsMember.ghostParticles_ 0
              initDataTime] := by
  constructor
  · simp [registerLevel, performAll, rootLevelNumber]
    rfl
  · rfl

end PHARE
